import Mathlib

set_option maxRecDepth 8000

/-!
Verification of the hierarchical map-reduce codebase-analysis engine
(`scanner.py` and `agent.py`).  Text is modelled as `List Char`; the
text-generation backend is an oracle `List Message → Except _ _`; every
backend invocation is recorded in an explicit call trace so that claims
about which stage did or did not reach the backend are expressible.
-/

namespace GithubRepoAgent

/-! ## scanner.py : token estimation, truncation and chunking -/

/-- `CHARS_PER_TOKEN` from scanner.py (1 token ≈ 3 characters). -/
def CHARS_PER_TOKEN : Nat := 3

/-- `estimate_tokens(text)` from scanner.py: `max(0, len(text) // CHARS_PER_TOKEN)`. -/
def estimate_tokens (text : List Char) : Nat :=
  max 0 (text.length / CHARS_PER_TOKEN)

/-- `truncate_to_token_limit(text, max_tokens, notice)` from scanner.py.
`notice` truthiness in Python is non-emptiness. -/
def truncate_to_token_limit (text : List Char) (max_tokens : Nat)
    (notice : List Char) : List Char :=
  let max_chars := max_tokens * CHARS_PER_TOKEN
  if text.length ≤ max_chars then text
  else
    let truncated := text.take max_chars
    if notice = [] then truncated else truncated ++ '\n' :: notice

/-- The characters Python's `str.splitlines` treats as line boundaries. -/
def isLineBreak (c : Char) : Bool :=
  c == '\n' || c == '\r' || c == Char.ofNat 0x0b || c == Char.ofNat 0x0c ||
  c == Char.ofNat 0x1c || c == Char.ofNat 0x1d || c == Char.ofNat 0x1e ||
  c == Char.ofNat 0x85 || c == Char.ofNat 0x2028 || c == Char.ofNat 0x2029

/-- Worker for `splitlines(keepends=True)`: `acc` holds the (reversed)
characters of the line being accumulated; a `"\r\n"` pair is kept as a
single line ending, as in Python.  The final one-character case inlines
what the general case would do on `[c]` so that the recursion is
structural (and hence kernel-reducible). -/
def splitlinesGo (acc : List Char) : List Char → List (List Char)
  | [] => if acc = [] then [] else [acc.reverse]
  | [c] =>
    if isLineBreak c then [acc.reverse ++ [c]] else [(c :: acc).reverse]
  | c :: b :: rest =>
    if c = '\r' ∧ b = '\n' then
      (acc.reverse ++ ['\r', '\n']) :: splitlinesGo [] rest
    else if isLineBreak c then
      (acc.reverse ++ [c]) :: splitlinesGo [] (b :: rest)
    else
      splitlinesGo (c :: acc) (b :: rest)

/-- Python's `text.splitlines(keepends=True)`. -/
def splitlines (text : List Char) : List (List Char) := splitlinesGo [] text

/-- The hard-split loop of `chunk_text`:
`for start in range(0, line_len, max_chars): chunks.append(line[start:start+max_chars])`.
Only ever invoked with `max_chars > 0` (Python's `range` would reject a zero
step); the `0` equation is an arbitrary total completion. -/
def hardSplit : Nat → List Char → List (List Char)
  | _, [] => []
  | 0, line => [line]
  | m + 1, c :: rest =>
    (c :: rest).take (m + 1) :: hardSplit (m + 1) ((c :: rest).drop (m + 1))
termination_by _ l => l.length
decreasing_by
  simp only [List.drop, List.length_cons, List.length_drop]
  omega

/-- The line-accumulation loop of `chunk_text`.  `current_chunk` is the list
of lines of the chunk being built (joined on flush, as Python joins the
accumulated list), `current_len` the running character count. -/
def chunkLoop (max_chars : Nat) :
    List (List Char) → List (List Char) → Nat → List (List Char)
  | [], current_chunk, _ =>
    if current_chunk = [] then [] else [current_chunk.flatten]
  | line :: rest, current_chunk, current_len =>
    if max_chars < line.length then
      (if current_chunk = [] then [] else [current_chunk.flatten]) ++
        hardSplit max_chars line ++ chunkLoop max_chars rest [] 0
    else if max_chars < current_len + line.length then
      current_chunk.flatten :: chunkLoop max_chars rest [line] line.length
    else
      chunkLoop max_chars rest (current_chunk ++ [line]) (current_len + line.length)

/-- `chunk_text(text, chunk_token_size)` from scanner.py. -/
def chunk_text (text : List Char) (chunk_token_size : Nat) : List (List Char) :=
  let max_chars := chunk_token_size * CHARS_PER_TOKEN
  if text.length ≤ max_chars then [text]
  else chunkLoop max_chars (splitlines text) [] 0


/-! ## agent.py : prompt template text (verbatim constants) -/

/-- `SYSTEM_PROMPT` from agent.py. -/
def SYSTEM_PROMPT : List Char :=
  "You are an expert software architect and code analyst. Your role is to analyze\nproject codebases and provide detailed, accurate insights.\n\nWhen given a codebase to analyze, you will:\n1. Identify the project\x27s overall purpose and architecture\n2. Map out the directory structure and explain the organization rationale\n3. Describe each file\x27s purpose and responsibility\n4. Identify key components, modules, and their interactions\n5. Trace import/dependency relationships between files\n6. Identify entry points and describe data flow\n7. Recognize architectural patterns (MVC, microservices, layered, etc.)\n8. Note any configuration files and their roles\n\nWhen answering follow-up questions:\n- Reference specific files and line-level details from the codebase context\n- Provide concrete, accurate answers based solely on the analyzed code\n- Trace execution paths and data flows when asked\n- Highlight relationships between components clearly\n\nAlways be precise, technical, and grounded in the actual code provided.".toList

/-- Literal segment 0 of `INITIAL_ANALYSIS_PROMPT` (text between its format placeholders). -/
def INITIAL_ANALYSIS_PROMPT_seg0 : List Char :=
  "Please analyze the following project codebase and generate a comprehensive report.\n\n## Project Path\n".toList

/-- Literal segment 1 of `INITIAL_ANALYSIS_PROMPT` (text between its format placeholders). -/
def INITIAL_ANALYSIS_PROMPT_seg1 : List Char :=
  "\n\n## Directory Structure\n```\n".toList

/-- Literal segment 2 of `INITIAL_ANALYSIS_PROMPT` (text between its format placeholders). -/
def INITIAL_ANALYSIS_PROMPT_seg2 : List Char :=
  "\n```\n\n## File Contents\n".toList

/-- Literal segment 3 of `INITIAL_ANALYSIS_PROMPT` (text between its format placeholders). -/
def INITIAL_ANALYSIS_PROMPT_seg3 : List Char :=
  "\n\n---\n\nPlease provide a structured analysis report with the following sections:\n\n### 1. Project Overview\nBrief description of what this project does and its overall purpose.\n\n### 2. Directory Structure & Organization\nExplain the directory hierarchy and the rationale behind the organization.\n\n### 3. File Inventory & Purposes\nFor each file, describe:\n- Its primary responsibility\n- Key functions/classes/exports it contains\n- Its role in the overall system\n\n### 4. Component Interactions & Relationships\nHow do the different modules/files interact with each other?\nWhich components depend on which?\n\n### 5. Dependency Map\nList all import/dependency relationships between files (internal dependencies).\nAlso note any external libraries/packages used.\n\n### 6. Entry Points & Data Flow\nIdentify the main entry points of the application.\nDescribe how data flows through the system from input to output.\n\n### 7. Architecture Patterns\nWhat architectural patterns or design principles are evident in this codebase?\n\n### 8. Summary\nA concise summary of the codebase\x27s strengths and overall design quality.".toList


/-- Literal segment 0 of `MAP_CHUNK_PROMPT` (text between its format placeholders). -/
def MAP_CHUNK_PROMPT_seg0 : List Char :=
  "You are analysing a large codebase in parts. This is chunk ".toList

/-- Literal segment 1 of `MAP_CHUNK_PROMPT` (text between its format placeholders). -/
def MAP_CHUNK_PROMPT_seg1 : List Char :=
  " of ".toList

/-- Literal segment 2 of `MAP_CHUNK_PROMPT` (text between its format placeholders). -/
def MAP_CHUNK_PROMPT_seg2 : List Char :=
  ".\n\n## Project Path\n".toList

/-- Literal segment 3 of `MAP_CHUNK_PROMPT` (text between its format placeholders). -/
def MAP_CHUNK_PROMPT_seg3 : List Char :=
  "\n\n## Directory Structure (full project)\n```\n".toList

/-- Literal segment 4 of `MAP_CHUNK_PROMPT` (text between its format placeholders). -/
def MAP_CHUNK_PROMPT_seg4 : List Char :=
  "\n```\n\n## File Contents (this chunk only)\n".toList

/-- Literal segment 5 of `MAP_CHUNK_PROMPT` (text between its format placeholders). -/
def MAP_CHUNK_PROMPT_seg5 : List Char :=
  "\n\n---\n\nProvide a concise technical summary of the files in this chunk covering:\n- File names and their primary responsibilities\n- Key classes, functions, and exports\n- Import/dependency relationships visible in this chunk\n- Any entry points or notable patterns\n\nBe thorough but concise — this summary will be merged with summaries of other chunks.".toList


/-- Literal segment 0 of `REDUCE_BATCH_PROMPT` (text between its format placeholders). -/
def REDUCE_BATCH_PROMPT_seg0 : List Char :=
  "You are synthesising partial codebase summaries into a consolidated intermediate summary.\n\n## Project Path\n".toList

/-- Literal segment 1 of `REDUCE_BATCH_PROMPT` (text between its format placeholders). -/
def REDUCE_BATCH_PROMPT_seg1 : List Char :=
  "\n\n## Directory Structure\n```\n".toList

/-- Literal segment 2 of `REDUCE_BATCH_PROMPT` (text between its format placeholders). -/
def REDUCE_BATCH_PROMPT_seg2 : List Char :=
  "\n```\n\n## Partial Summaries to Consolidate\n".toList

/-- Literal segment 3 of `REDUCE_BATCH_PROMPT` (text between its format placeholders). -/
def REDUCE_BATCH_PROMPT_seg3 : List Char :=
  "\n\n---\n\nProduce a consolidated technical summary that preserves all key information:\n- All file names and their responsibilities\n- All key classes, functions, and exports\n- All import/dependency relationships\n- All entry points and notable patterns\n\nBe comprehensive but avoid redundancy.".toList


/-- Literal segment 0 of `REDUCE_SYNTHESIS_PROMPT` (text between its format placeholders). -/
def REDUCE_SYNTHESIS_PROMPT_seg0 : List Char :=
  "You have analysed a large codebase in ".toList

/-- Literal segment 1 of `REDUCE_SYNTHESIS_PROMPT` (text between its format placeholders). -/
def REDUCE_SYNTHESIS_PROMPT_seg1 : List Char :=
  " parts.\nBelow are the consolidated summaries. Synthesise them into one comprehensive analysis report.\n\n## Project Path\n".toList

/-- Literal segment 2 of `REDUCE_SYNTHESIS_PROMPT` (text between its format placeholders). -/
def REDUCE_SYNTHESIS_PROMPT_seg2 : List Char :=
  "\n\n## Directory Structure\n```\n".toList

/-- Literal segment 3 of `REDUCE_SYNTHESIS_PROMPT` (text between its format placeholders). -/
def REDUCE_SYNTHESIS_PROMPT_seg3 : List Char :=
  "\n```\n\n## Consolidated Summaries\n".toList

/-- Literal segment 4 of `REDUCE_SYNTHESIS_PROMPT` (text between its format placeholders). -/
def REDUCE_SYNTHESIS_PROMPT_seg4 : List Char :=
  "\n\n---\n\nPlease provide a complete structured analysis report with the following sections:\n\n### 1. Project Overview\nBrief description of what this project does and its overall purpose.\n\n### 2. Directory Structure & Organization\nExplain the directory hierarchy and the rationale behind the organization.\n\n### 3. File Inventory & Purposes\nFor each file (across all chunks), describe its primary responsibility and role.\n\n### 4. Component Interactions & Relationships\nHow do the different modules/files interact with each other?\nWhich components depend on which?\n\n### 5. Dependency Map\nList all import/dependency relationships between files (internal dependencies).\nAlso note any external libraries/packages used.\n\n### 6. Entry Points & Data Flow\nIdentify the main entry points of the application.\nDescribe how data flows through the system from input to output.\n\n### 7. Architecture Patterns\nWhat architectural patterns or design principles are evident in this codebase?\n\n### 8. Summary\nA concise summary of the codebase\x27s strengths and overall design quality.".toList

/-! ## agent.py : constants, messages and the instrumented backend call -/

/-- `API_MAX_TOKENS` from agent.py (platform ceiling; not used by the guard). -/
def API_MAX_TOKENS : Nat := 1048576

/-- `MODEL_CONTEXT_LIMIT` from agent.py. -/
def MODEL_CONTEXT_LIMIT : Nat := 131072

/-- `PROMPT_OVERHEAD_TOKENS` from agent.py. -/
def PROMPT_OVERHEAD_TOKENS : Nat := 8000

/-- `MAX_PROMPT_TOKENS = MODEL_CONTEXT_LIMIT - PROMPT_OVERHEAD_TOKENS`. -/
def MAX_PROMPT_TOKENS : Nat := MODEL_CONTEXT_LIMIT - PROMPT_OVERHEAD_TOKENS

/-- `CHUNK_SAFETY_MARGIN` from agent.py. -/
def CHUNK_SAFETY_MARGIN : Nat := 8000

/-- `REDUCE_TOKEN_BUDGET` from agent.py. -/
def REDUCE_TOKEN_BUDGET : Nat := 90000

/-- `REDUCE_BATCH_MAX` from agent.py. -/
def REDUCE_BATCH_MAX : Nat := 20

/-- A role-tagged chat message. -/
structure Message where
  role : List Char
  content : List Char
deriving DecidableEq

def roleSystem : List Char := "system".toList
def roleUser : List Char := "user".toList
def roleAssistant : List Char := "assistant".toList

/-- A system-role message. -/
def sysMsg (content : List Char) : Message := ⟨roleSystem, content⟩

/-- A user-role message. -/
def userMsg (content : List Char) : Message := ⟨roleUser, content⟩

/-- An assistant-role message. -/
def assistantMsg (content : List Char) : Message := ⟨roleAssistant, content⟩

/-- Python's `" ".join(...)`. -/
def joinWithSpace : List (List Char) → List Char
  | [] => []
  | [x] => x
  | x :: y :: rest => x ++ ' ' :: joinWithSpace (y :: rest)

/-- Errors `_call_llm` can raise: the pre-flight size rejection and the
wrapped backend failure. -/
inductive CallError
  | payloadTooLarge (estimated : Nat)
  | apiFailure (msg : List Char)
deriving DecidableEq

/-- Which call site of `_call_llm` a backend invocation came from. -/
inductive CallTag
  | single
  | mapChunk (chunk_index total_chunks : Nat)
  | reduceBatch (reduce_round batch_index : Nat)
  | synthesis
  | askCall
deriving DecidableEq

/-- One `_call_llm` invocation: the call-site tag, the messages handed in,
whether the backend was actually reached (`sent`), and the outcome. -/
structure LlmCall where
  tag : CallTag
  messages : List Message
  sent : Bool
  outcome : Except CallError (List Char)

/-- The opaque text-generation backend (OpenRouter chat completion). -/
abbrev Backend := List Message → Except (List Char) (List Char)

/-- `_call_llm(messages)` from agent.py: join all message contents with
spaces, estimate, reject above `MODEL_CONTEXT_LIMIT`, otherwise invoke the
backend once and wrap its failure. -/
def call_llm_at (tag : CallTag) (messages : List Message) (backend : Backend) :
    LlmCall :=
  let total_text := joinWithSpace (messages.map Message.content)
  let estimated := estimate_tokens total_text
  if MODEL_CONTEXT_LIMIT < estimated then
    { tag := tag, messages := messages, sent := false,
      outcome := .error (.payloadTooLarge estimated) }
  else
    match backend messages with
    | .ok text =>
      { tag := tag, messages := messages, sent := true, outcome := .ok text }
    | .error e =>
      { tag := tag, messages := messages, sent := true,
        outcome := .error (.apiFailure e) }

/-! ## agent.py : prompt rendering -/

/-- Python `str(n)` for the non-negative ints fed into `.format`. -/
def natStr (n : Nat) : List Char := (Nat.repr n).toList

/-- `INITIAL_ANALYSIS_PROMPT.format(...)`. -/
def INITIAL_ANALYSIS_PROMPT_format
    (project_path directory_tree code_contents : List Char) : List Char :=
  INITIAL_ANALYSIS_PROMPT_seg0 ++ project_path ++
  INITIAL_ANALYSIS_PROMPT_seg1 ++ directory_tree ++
  INITIAL_ANALYSIS_PROMPT_seg2 ++ code_contents ++
  INITIAL_ANALYSIS_PROMPT_seg3

/-- `MAP_CHUNK_PROMPT.format(...)`. -/
def MAP_CHUNK_PROMPT_format (chunk_index total_chunks : Nat)
    (project_path directory_tree code_contents : List Char) : List Char :=
  MAP_CHUNK_PROMPT_seg0 ++ natStr chunk_index ++
  MAP_CHUNK_PROMPT_seg1 ++ natStr total_chunks ++
  MAP_CHUNK_PROMPT_seg2 ++ project_path ++
  MAP_CHUNK_PROMPT_seg3 ++ directory_tree ++
  MAP_CHUNK_PROMPT_seg4 ++ code_contents ++
  MAP_CHUNK_PROMPT_seg5

/-- `REDUCE_BATCH_PROMPT.format(...)`. -/
def REDUCE_BATCH_PROMPT_format
    (project_path directory_tree chunk_summaries : List Char) : List Char :=
  REDUCE_BATCH_PROMPT_seg0 ++ project_path ++
  REDUCE_BATCH_PROMPT_seg1 ++ directory_tree ++
  REDUCE_BATCH_PROMPT_seg2 ++ chunk_summaries ++
  REDUCE_BATCH_PROMPT_seg3

/-- `REDUCE_SYNTHESIS_PROMPT.format(...)`. -/
def REDUCE_SYNTHESIS_PROMPT_format (total_chunks : Nat)
    (project_path directory_tree chunk_summaries : List Char) : List Char :=
  REDUCE_SYNTHESIS_PROMPT_seg0 ++ natStr total_chunks ++
  REDUCE_SYNTHESIS_PROMPT_seg1 ++ project_path ++
  REDUCE_SYNTHESIS_PROMPT_seg2 ++ directory_tree ++
  REDUCE_SYNTHESIS_PROMPT_seg3 ++ chunk_summaries ++
  REDUCE_SYNTHESIS_PROMPT_seg4

/-- `_map_chunk`: one map-phase backend call for one chunk. -/
def map_chunk_call (backend : Backend) (chunk_index total_chunks : Nat)
    (project_path directory_tree code_contents_chunk : List Char) : LlmCall :=
  call_llm_at (.mapChunk chunk_index total_chunks)
    [sysMsg SYSTEM_PROMPT,
     userMsg (MAP_CHUNK_PROMPT_format chunk_index total_chunks
        project_path directory_tree code_contents_chunk)] backend

/-- `f"### Summary {i + 1}\n{s}"` from `_reduce_batch`. -/
def summaryItem (i : Nat) (s : List Char) : List Char :=
  "### Summary ".toList ++ natStr (i + 1) ++ '\n' :: s

/-- The `"\n\n---\n\n"` separator of `_reduce_batch`. -/
def summarySep : List Char := "\n\n---\n\n".toList

/-- Index-aware map (Python `enumerate`). -/
def mapWithIndexGo (f : Nat → α → β) : Nat → List α → List β
  | _, [] => []
  | i, a :: rest => f i a :: mapWithIndexGo f (i + 1) rest

/-- Index-aware map starting at 0. -/
def mapWithIndex (f : Nat → α → β) (l : List α) : List β :=
  mapWithIndexGo f 0 l

/-- The `combined` string `_reduce_batch` builds from a batch. -/
def combineBatch (batch : List (List Char)) : List Char :=
  List.intercalate summarySep (mapWithIndex summaryItem batch)

/-- `_reduce_batch`: one reduce-phase backend call for one batch. -/
def reduce_batch_call (backend : Backend) (reduce_round batch_index : Nat)
    (project_path directory_tree : List Char) (batch : List (List Char)) :
    LlmCall :=
  call_llm_at (.reduceBatch reduce_round batch_index)
    [sysMsg SYSTEM_PROMPT,
     userMsg (REDUCE_BATCH_PROMPT_format project_path directory_tree
        (combineBatch batch))] backend

/-- `_final_synthesis`: the one synthesizer backend call. -/
def final_synthesis_call (backend : Backend)
    (project_path directory_tree consolidated_summary : List Char)
    (total_original_chunks : Nat) : LlmCall :=
  call_llm_at .synthesis
    [sysMsg SYSTEM_PROMPT,
     userMsg (REDUCE_SYNTHESIS_PROMPT_format total_original_chunks
        project_path directory_tree consolidated_summary)] backend

/-! ## agent.py : token-aware batching -/

/-- The `overhead` computed inside `_build_token_aware_batches`: system
prompt plus the reduce template rendered with empty fields. -/
def reduce_overhead : Nat :=
  estimate_tokens SYSTEM_PROMPT +
  estimate_tokens (REDUCE_BATCH_PROMPT_format [] [] [])

/-- `available = REDUCE_TOKEN_BUDGET - overhead` from
`_build_token_aware_batches` (the overhead is a few hundred tokens, far
below the budget, so Nat subtraction agrees with Python). -/
def reduce_available : Nat := REDUCE_TOKEN_BUDGET - reduce_overhead

/-- The accumulation loop of `_build_token_aware_batches`. -/
def batchesGo : List (List Char) → List (List Char) → Nat →
    List (List (List Char))
  | [], current_batch, _ => if current_batch = [] then [] else [current_batch]
  | summary :: rest, current_batch, current_tokens =>
    let s_tokens := estimate_tokens summary
    if current_batch ≠ [] ∧ (reduce_available < current_tokens + s_tokens ∨
        REDUCE_BATCH_MAX ≤ current_batch.length) then
      current_batch :: batchesGo rest [summary] s_tokens
    else
      batchesGo rest (current_batch ++ [summary]) (current_tokens + s_tokens)

/-- `_build_token_aware_batches(summaries)` from agent.py. -/
def build_token_aware_batches (summaries : List (List Char)) :
    List (List (List Char)) :=
  batchesGo summaries [] 0

/-! ## agent.py : hierarchical reduce and the streaming driver -/

/-- Failures a whole run can end in.  `outOfFuel` is the fuel-model marker
for a reduce recursion that has not finished within the given round budget
(the Python recursion simply keeps going); `emptyReduce` models the
`ThreadPoolExecutor(max_workers=0)` ValueError raised when a reduce round
is started with zero batches. -/
inductive RunError
  | call (e : CallError)
  | outOfFuel
  | emptyReduce
deriving DecidableEq

/-- The progress events `analyze_project_stream` yields (the dict payloads,
keyed by their `stage`). -/
inductive Event
  | chunking (total_chunks : Nat)
  | mapping (chunk total : Nat)
  | reducingStart (reduce_round total_summaries total_batches : Nat)
  | reducingBatch (reduce_round batch total_batches : Nat)
  | report (text : List Char)
  | error (e : RunError)

/-- Did this call succeed? -/
def isOkCall (c : LlmCall) : Bool :=
  match c.outcome with
  | .ok _ => true
  | .error _ => false

/-- First failure among a round of concurrent calls (the exception
`as_completed`/`future.result()` re-raises; index order is the
deterministic stand-in for completion order). -/
def firstCallError (calls : List LlmCall) : Option CallError :=
  calls.findSome? fun c =>
    match c.outcome with
    | .error e => some e
    | .ok _ => none

/-- Result text of a successful call (only read when all calls succeeded). -/
def okText (c : LlmCall) : List Char :=
  match c.outcome with
  | .ok t => t
  | .error _ => []

/-- Per-completion progress events: one event per successful call before the
first failure, carrying the running completed counter. -/
def completedEvents (mk : Nat → Event) (calls : List LlmCall) : List Event :=
  (List.range (calls.takeWhile isOkCall).length).map fun j => mk (j + 1)

/-- Outcome of `_hierarchical_reduce`: the progress events it pushed, the
backend calls it made, and its result. -/
structure ReduceOut where
  events : List Event
  calls : List LlmCall
  result : Except RunError (List Char)

/-- All `_reduce_batch` calls of one reduce round, in batch-index order
(results are written back by index in the source, so index order is the
canonical order). -/
def runReduceBatches (backend : Backend)
    (project_path directory_tree : List Char) (reduce_round : Nat)
    (batches : List (List (List Char))) : List LlmCall :=
  mapWithIndex (fun i batch =>
    reduce_batch_call backend reduce_round (i + 1) project_path directory_tree
      batch) batches

/-- `_hierarchical_reduce` from agent.py, with an explicit round budget
`fuel` in place of unbounded Python recursion.  The single-summary base
case precedes the fuel check, exactly as the length test precedes any work
in the source. -/
def hierarchical_reduce (backend : Backend)
    (project_path directory_tree : List Char) :
    Nat → List (List Char) → Nat → ReduceOut
  | fuel, summaries, reduce_round =>
    if summaries.length = 1 then
      { events := [], calls := [], result := .ok summaries.headI }
    else
      match fuel with
      | 0 => { events := [], calls := [], result := .error .outOfFuel }
      | fuel' + 1 =>
        let batches := build_token_aware_batches summaries
        let total_batches := batches.length
        let startEvent :=
          Event.reducingStart reduce_round summaries.length total_batches
        if total_batches = 0 then
          { events := [startEvent], calls := [], result := .error .emptyReduce }
        else
          let calls := runReduceBatches backend project_path directory_tree
            reduce_round batches
          let events := startEvent ::
            completedEvents (fun k => .reducingBatch reduce_round k total_batches)
              calls
          match firstCallError calls with
          | some e =>
            { events := events, calls := calls, result := .error (.call e) }
          | none =>
            let intermediate := calls.map okText
            if 1 < intermediate.length then
              let deeper := hierarchical_reduce backend project_path
                directory_tree fuel' intermediate (reduce_round + 1)
              { events := events ++ deeper.events,
                calls := calls ++ deeper.calls,
                result := deeper.result }
            else
              { events := events, calls := calls,
                result := .ok intermediate.headI }

/-- All `_map_chunk` calls, in chunk-index order. -/
def runMapCalls (backend : Backend) (project_path directory_tree : List Char)
    (total_chunks : Nat) (chunks : List (List Char)) : List LlmCall :=
  mapWithIndex (fun i chunk =>
    map_chunk_call backend (i + 1) total_chunks project_path directory_tree
      chunk) chunks

def SEED_USER_seg0 : List Char :=
  "I have analysed the codebase at ".toList

def SEED_USER_seg1 : List Char :=
  ". Here is the full analysis report. Please use it to answer any follow-up questions I ask.\n\n## Directory Structure\n```\n".toList

def SEED_USER_seg2 : List Char :=
  "\n```\n\n## Analysis Report\n".toList

def SEED_ACK : List Char :=
  "Understood. I have reviewed the full analysis report and the directory structure. I\x27m ready to answer any follow-up questions about this codebase.".toList

/-- The compact two-turn conversation seed stored after a successful
map-reduce run. -/
def seedHistory (project_path directory_tree report : List Char) :
    List Message :=
  [sysMsg SYSTEM_PROMPT,
   userMsg (SEED_USER_seg0 ++ project_path ++ SEED_USER_seg1 ++
      directory_tree ++ SEED_USER_seg2 ++ report),
   assistantMsg SEED_ACK]

/-- The scan result `analyze_project_stream` receives from the external
`scan_project` corpus provider. -/
structure ScanResult where
  project_path : List Char
  directory_tree : List Char
  code_contents : List Char

/-- Observable outcome of one streaming run: the yielded events in order,
the backend calls made, and the session history left behind. -/
structure RunOut where
  events : List Event
  calls : List LlmCall
  history : List Message

/-- The single-shot routing estimate: system prompt plus the full user
prompt with the whole corpus embedded (`total_tokens` in
`analyze_project_stream`). -/
def routeTokens (scan : ScanResult) : Nat :=
  estimate_tokens SYSTEM_PROMPT +
    estimate_tokens (INITIAL_ANALYSIS_PROMPT_format scan.project_path
      scan.directory_tree scan.code_contents)

/-- The dynamic per-chunk budget computed on the map-reduce path:
`max(1000, MODEL_CONTEXT_LIMIT - map_prompt_overhead - CHUNK_SAFETY_MARGIN)`
with the overhead rendered from the real path and tree. -/
def dynamicChunkBudget (scan : ScanResult) : Nat :=
  max 1000 (MODEL_CONTEXT_LIMIT -
    (estimate_tokens SYSTEM_PROMPT +
      estimate_tokens (MAP_CHUNK_PROMPT_format 1 1 scan.project_path
        scan.directory_tree [])) - CHUNK_SAFETY_MARGIN)

/-- The chunks the map-reduce path feeds to the map phase. -/
def runChunks (scan : ScanResult) : List (List Char) :=
  chunk_text scan.code_contents (dynamicChunkBudget scan)

/-- All map-phase calls of one run, in chunk order. -/
def runMapPhase (scan : ScanResult) (backend : Backend) : List LlmCall :=
  runMapCalls backend scan.project_path scan.directory_tree
    (runChunks scan).length (runChunks scan)

/-- The hierarchical reduce applied to the map phase's summaries
(round counter starts at 1, as in `_run_reduce`). -/
def runReducePhase (scan : ScanResult) (backend : Backend) (fuel : Nat) :
    ReduceOut :=
  hierarchical_reduce backend scan.project_path scan.directory_tree fuel
    (List.map okText (runMapPhase scan backend)) 1

/-- `analyze_project_stream` from agent.py: routing, chunking, concurrent
map, hierarchical reduce, final synthesis, and the terminal report/error
event.  `history0` is the session history before the run (on failure the
source leaves `self.conversation_history` untouched on the map-reduce path,
and at the two-message prefix on the single-call path). -/
def analyze_project_stream (scan : ScanResult) (backend : Backend)
    (fuel : Nat) (history0 : List Message) : RunOut :=
  if routeTokens scan ≤ MAX_PROMPT_TOKENS then
    let history1 : List Message :=
      [sysMsg SYSTEM_PROMPT,
       userMsg (INITIAL_ANALYSIS_PROMPT_format scan.project_path
         scan.directory_tree scan.code_contents)]
    let c := call_llm_at .single history1 backend
    match c.outcome with
    | .ok rep =>
      { events := [.chunking 1, .mapping 1 1, .report rep],
        calls := [c],
        history := history1 ++ [assistantMsg rep] }
    | .error e =>
      { events := [.chunking 1, .mapping 1 1, .error (.call e)],
        calls := [c],
        history := history1 }
  else
    let total_chunks := (runChunks scan).length
    let preEvents := [Event.chunking total_chunks, Event.mapping 0 total_chunks]
    let mapCalls := runMapPhase scan backend
    let mapEvents :=
      completedEvents (fun k => .mapping k total_chunks) mapCalls
    match firstCallError mapCalls with
    | some e =>
      { events := preEvents ++ mapEvents ++ [.error (.call e)],
        calls := mapCalls, history := history0 }
    | none =>
      let red := runReducePhase scan backend fuel
      match red.result with
      | .error e =>
        { events := preEvents ++ mapEvents ++ red.events ++ [.error e],
          calls := mapCalls ++ red.calls, history := history0 }
      | .ok consolidated =>
        let syn := final_synthesis_call backend scan.project_path
          scan.directory_tree consolidated total_chunks
        match syn.outcome with
        | .error e =>
          { events := preEvents ++ mapEvents ++ red.events ++ [.error (.call e)],
            calls := mapCalls ++ red.calls ++ [syn], history := history0 }
        | .ok rep =>
          { events := preEvents ++ mapEvents ++ red.events ++ [.report rep],
            calls := mapCalls ++ red.calls ++ [syn],
            history := seedHistory scan.project_path scan.directory_tree rep }

/-! ## agent.py : follow-up Q&A -/

/-- Failures of `ask`: the no-session RuntimeError or a `_call_llm` error. -/
inductive AskError
  | noSession
  | callFailed (e : CallError)
deriving DecidableEq

/-- Observable outcome of one `ask` call: the conversation history after
the call, the `_call_llm` invocations made, and the outcome. -/
structure AskOut where
  history : List Message
  calls : List LlmCall
  outcome : Except AskError (List Char)

/-- `ask(question)` from agent.py.  The question is appended to the history
before `_call_llm` runs; on failure the history keeps the dangling
question. -/
def ask (conversation_history : List Message) (question : List Char)
    (backend : Backend) : AskOut :=
  if conversation_history = [] then
    { history := conversation_history, calls := [], outcome := .error .noSession }
  else
    let h1 := conversation_history ++ [userMsg question]
    let c := call_llm_at .askCall h1 backend
    match c.outcome with
    | .ok answer =>
      { history := h1 ++ [assistantMsg answer], calls := [c],
        outcome := .ok answer }
    | .error e =>
      { history := h1, calls := [c], outcome := .error (.callFailed e) }

/-! ## Concrete oracles and inputs used in witnesses and counterexamples -/

/-- A backend that always answers `"a"`. -/
def okBackendA : Backend := fun _ => .ok ['a']

/-- A backend that always fails with message `"b"`. -/
def failBackendB : Backend := fun _ => .error ['b']

/-- An oversized summary: 150 000 characters, estimating to 50 000 tokens —
more than half the reduce batch budget, so two of them can never share a
batch. -/
def c5big : List Char := List.replicate 150000 'a'

/-- A backend that answers every call with the oversized summary `c5big`. -/
def echoBigBackend : Backend := fun _ => .ok c5big

/-- A backend that succeeds (answering `"A"`) exactly on large payloads —
over 10 000 characters of joined content — and fails with `"b"` otherwise.
Map-phase prompts embed a huge code chunk and succeed; reduce-phase prompts
built from the tiny `"A"` summaries are short and fail. -/
def c2Backend : Backend := fun msgs =>
  if 10000 < (joinWithSpace (msgs.map Message.content)).length then .ok ['A']
  else .error ['b']

/-- A scan result whose corpus is a single 400 000-character line: large
enough to force the map-reduce route and to hard-split into two chunks. -/
def c2Scan : ScanResult :=
  { project_path := [], directory_tree := [],
    code_contents := List.replicate 400000 'a' }

/-- First chunk of the `c2Scan` corpus: one full budget of characters. -/
def c2Chunk1 : List Char := List.replicate 367692 'a'

/-- Second chunk of the `c2Scan` corpus: the 32 308-character remainder. -/
def c2Chunk2 : List Char := List.replicate 32308 'a'

/-- Messages of the `i`-th map call of the `c2Scan` run. -/
def c2MapMessages (i : Nat) (chunk : List Char) : List Message :=
  [sysMsg SYSTEM_PROMPT, userMsg (MAP_CHUNK_PROMPT_format i 2 [] [] chunk)]

/-- Trace record of the `i`-th (successful) map call of the `c2Scan` run. -/
def c2MapCallRec (i : Nat) (chunk : List Char) : LlmCall :=
  { tag := .mapChunk i 2, messages := c2MapMessages i chunk,
    sent := true, outcome := .ok ['A'] }

/-- Messages of the single reduce call of the `c2Scan` run. -/
def c2ReduceMessages : List Message :=
  [sysMsg SYSTEM_PROMPT,
   userMsg (REDUCE_BATCH_PROMPT_format [] [] (combineBatch [['A'], ['A']]))]

/-- Trace record of the failing reduce call of the `c2Scan` run. -/
def c2ReduceCallRec : LlmCall :=
  { tag := .reduceBatch 1 1, messages := c2ReduceMessages,
    sent := true, outcome := .error (.apiFailure ['b']) }

/-- Combined estimate of a batch, as `_hierarchical_reduce` logs it. -/
def batchTokens (batch : List (List Char)) : Nat :=
  (batch.map estimate_tokens).sum

/-- Is this progress event a terminal `error` event? -/
def isErrorEvent : Event → Bool
  | .error _ => true
  | _ => false

/-- Is this progress event a terminal `report` event? -/
def isReportEvent : Event → Bool
  | .report _ => true
  | _ => false

/-- Did this call originate from `_reduce_batch`? -/
def isReduceBatchTag : CallTag → Bool
  | .reduceBatch _ _ => true
  | _ => false

/-- Number of events of a given kind in a run's event stream. -/
def countEvents (p : Event → Bool) (events : List Event) : Nat :=
  (events.filter p).length

/-! ## Lemmas: splitlines and hard-splitting rebuild the text -/

/-- Flattening the keepends line split restores the input. -/
theorem splitlinesGo_flatten (acc l : List Char) :
    (splitlinesGo acc l).flatten = acc.reverse ++ l := by
  induction acc, l using splitlinesGo.induct with
  | case1 => simp [splitlinesGo]
  | case2 acc h => simp [splitlinesGo, h]
  | case3 acc c h => simp [splitlinesGo, h]
  | case4 acc c h => simp [splitlinesGo, h]
  | case5 acc c b rest h ih =>
    obtain ⟨hc, hb⟩ := h
    subst hc hb
    simp only [splitlinesGo, if_pos (And.intro rfl rfl), List.flatten_cons, ih]
    simp
    simpa using ih
  | case6 acc c b rest h hb ih =>
    simp only [splitlinesGo, if_neg h, if_pos hb, List.flatten_cons, ih]
    simp
  | case7 acc c b rest h hb ih =>
    simp only [splitlinesGo, if_neg h, if_neg hb, ih, List.reverse_cons]
    simp

/-- `splitlines(keepends=True)` flattens back to the original text. -/
theorem splitlines_flatten (text : List Char) :
    (splitlines text).flatten = text := by
  simpa using splitlinesGo_flatten [] text

/-- Hard-splitting an oversized line rebuilds the line. -/
theorem hardSplit_flatten (m : Nat) (line : List Char) :
    (hardSplit m line).flatten = line := by
  induction m, line using hardSplit.induct with
  | case1 m => simp [hardSplit]
  | case2 line _ => simp [hardSplit]
  | case3 m c rest ih =>
    rw [hardSplit, List.flatten_cons, ih, List.take_append_drop]

/-- Every hard-split piece is at most `m` characters long. -/
theorem hardSplit_piece_length (m : Nat) (line piece : List Char)
    (hm : 0 < m) (hp : piece ∈ hardSplit m line) : piece.length ≤ m := by
  induction m, line using hardSplit.induct with
  | case1 m => simp [hardSplit] at hp
  | case2 line _ => omega
  | case3 m c rest ih =>
    rw [hardSplit, List.mem_cons] at hp
    rcases hp with rfl | hp
    · exact List.length_take_le (m + 1) (c :: rest)
    · exact ih hm hp

/-- The chunk accumulation loop only rearranges line boundaries: its output
flattens to the pending chunk followed by the remaining lines. -/
theorem chunkLoop_flatten (max_chars : Nat) (lines : List (List Char))
    (current_chunk : List (List Char)) (current_len : Nat) :
    (chunkLoop max_chars lines current_chunk current_len).flatten =
      current_chunk.flatten ++ lines.flatten := by
  induction lines generalizing current_chunk current_len with
  | nil =>
    by_cases h : current_chunk = [] <;> simp [chunkLoop, h]
  | cons line rest ih =>
    by_cases h1 : max_chars < line.length
    · by_cases h2 : current_chunk = []
      · simp [chunkLoop, h1, h2, ih, hardSplit_flatten]
      · simp [chunkLoop, h1, h2, ih, hardSplit_flatten]
    · by_cases h2 : max_chars < current_len + line.length
      · simp [chunkLoop, h1, h2, ih]
      · simp [chunkLoop, h1, h2, ih]

/-- Invariant proof: every chunk the loop emits has at most `max_chars`
characters, provided the pending chunk is within bounds. -/
theorem chunkLoop_chunk_length (max_chars : Nat) (lines : List (List Char))
    (current_chunk : List (List Char)) (current_len : Nat)
    (hm : 0 < max_chars) (hcl : current_len = current_chunk.flatten.length)
    (hb : current_len ≤ max_chars) :
    ∀ chunk ∈ chunkLoop max_chars lines current_chunk current_len,
      chunk.length ≤ max_chars := by
  induction lines generalizing current_chunk current_len with
  | nil =>
    intro chunk hc
    by_cases h : current_chunk = [] <;> simp [chunkLoop, h] at hc
    subst hc; omega
  | cons line rest ih =>
    intro chunk hc
    by_cases h1 : max_chars < line.length
    · simp only [chunkLoop, if_pos h1, List.append_assoc, List.mem_append] at hc
      rcases hc with hflush | hrest
      · by_cases h2 : current_chunk = []
        · simp [h2] at hflush
        · simp only [if_neg h2, List.mem_singleton] at hflush
          subst hflush; omega
      · rcases hrest with hpiece | hloop
        · exact hardSplit_piece_length max_chars line chunk hm hpiece
        · exact ih [] 0 rfl (Nat.zero_le _) chunk hloop
    · by_cases h2 : max_chars < current_len + line.length
      · simp only [chunkLoop, if_neg h1, if_pos h2, List.mem_cons] at hc
        rcases hc with rfl | hloop
        · omega
        · exact ih [line] line.length (by simp) (by omega) chunk hloop
      · simp only [chunkLoop, if_neg h1, if_neg h2] at hc
        exact ih (current_chunk ++ [line]) (current_len + line.length)
          (by simp [hcl]) (by omega) chunk hc

/-- C1 (confirmed).  For every text `T` and budget `B > 0`, concatenating
the chunks of `chunk_text(T, B)` in order reconstructs `T` exactly,
including hard-split pieces of oversized lines. -/
theorem chunk_text_concat_reconstructs (text : List Char) (B : Nat)
    (hB : 0 < B) : (chunk_text text B).flatten = text := by
  unfold chunk_text
  by_cases h : text.length ≤ B * CHARS_PER_TOKEN
  · simp [h]
  · simp only [if_neg h]
    rw [chunkLoop_flatten, splitlines_flatten]
    simp

/-- Witness for C1 at a concrete text and budget. -/
theorem chunk_text_concat_witness :
    0 < 1 ∧ (chunk_text ("ab\ncd".toList) 1).flatten = "ab\ncd".toList :=
  ⟨Nat.one_pos, chunk_text_concat_reconstructs ("ab\ncd".toList) 1 Nat.one_pos⟩

/-- C4 (confirmed, in the stronger unconditional form).  Every chunk of
`chunk_text(T, B)` — including the hard-split pieces, which the claim
exempts — satisfies `estimate_tokens(chunk) ≤ B`. -/
theorem chunk_text_chunks_within_budget (text : List Char) (B : Nat)
    (hB : 0 < B) :
    ∀ chunk ∈ chunk_text text B, estimate_tokens chunk ≤ B := by
  intro chunk hc
  have hm : 0 < B * CHARS_PER_TOKEN := by
    simp only [CHARS_PER_TOKEN]; omega
  have hlen : chunk.length ≤ B * CHARS_PER_TOKEN := by
    unfold chunk_text at hc
    by_cases h : text.length ≤ B * CHARS_PER_TOKEN
    · simp only [if_pos h, List.mem_singleton] at hc
      subst hc; exact h
    · simp only [if_neg h] at hc
      exact chunkLoop_chunk_length _ _ [] 0 hm rfl (Nat.zero_le _) chunk hc
  have : chunk.length / CHARS_PER_TOKEN ≤ (B * CHARS_PER_TOKEN) / CHARS_PER_TOKEN :=
    Nat.div_le_div_right hlen
  simpa [estimate_tokens, CHARS_PER_TOKEN] using this

/-- Witness for C4 at a concrete text, budget and chunk. -/
theorem chunk_text_chunks_within_budget_witness :
    0 < 1 ∧ "ab\n".toList ∈ chunk_text ("ab\ncd".toList) 1 ∧
      estimate_tokens ("ab\n".toList) ≤ 1 :=
  ⟨Nat.one_pos, by decide,
    chunk_text_chunks_within_budget ("ab\ncd".toList) 1 Nat.one_pos
      ("ab\n".toList) (by decide)⟩

/-- C8 counterexample: `"abcde"` with `max_tokens = 1` estimates to
`5 // 3 = 1 ≤ 1` tokens, yet `truncate_to_token_limit` cuts it to 3
characters, so the function is not a no-op on all inputs whose token
estimate is within budget. -/
theorem truncate_within_estimate_not_noop :
    estimate_tokens ("abcde".toList) ≤ 1 ∧
      truncate_to_token_limit ("abcde".toList) 1 [] ≠ "abcde".toList := by
  exact ⟨by decide, by decide⟩

/-- C8 (amended).  `truncate_to_token_limit` is a no-op (and then
idempotent) on every text of at most `max_tokens * CHARS_PER_TOKEN`
characters.  This character-length condition is sufficient — slightly
stronger than the estimate-based `estimate_tokens text ≤ max_tokens`,
which does not guarantee a no-op — but it is not claimed necessary: an
over-budget text can coincidentally survive unchanged when the truncation
plus appended notice rebuilds it. -/
theorem truncate_noop_of_char_budget (text : List Char) (max_tokens : Nat)
    (notice : List Char) (h : text.length ≤ max_tokens * CHARS_PER_TOKEN) :
    truncate_to_token_limit text max_tokens notice = text ∧
      truncate_to_token_limit (truncate_to_token_limit text max_tokens notice)
        max_tokens notice = truncate_to_token_limit text max_tokens notice := by
  have h1 : truncate_to_token_limit text max_tokens notice = text := by
    unfold truncate_to_token_limit
    simp [h]
  exact ⟨h1, by rw [h1, h1]⟩

/-- Witness for the amended C8 at a concrete in-budget text. -/
theorem truncate_noop_witness :
    ("ab".toList).length ≤ 1 * CHARS_PER_TOKEN ∧
      truncate_to_token_limit ("ab".toList) 1 ("n".toList) = "ab".toList :=
  ⟨by decide, (truncate_noop_of_char_budget ("ab".toList) 1 ("n".toList)
    (by decide)).1⟩

/-- The character-budget condition is sufficient but not necessary for a
no-op: here the text exceeds the budget, yet the truncated prefix with the
notice appended happens to rebuild the original text. -/
theorem truncate_noop_not_necessary :
    1 * CHARS_PER_TOKEN < ("abc\nX".toList).length ∧
      truncate_to_token_limit ("abc\nX".toList) 1 ("X".toList) =
        "abc\nX".toList := by
  exact ⟨by decide, by decide⟩

/-! ## Batching (C6) -/

/-- Invariant proof for the batch-accumulation loop: assuming the pending
batch satisfies the size/count bounds, every emitted batch does. -/
theorem batchesGo_sound (rest : List (List Char))
    (current : List (List Char)) (ct : Nat)
    (hct : ct = batchTokens current)
    (hlen : current.length ≤ REDUCE_BATCH_MAX)
    (hP : current ≠ [] →
      (batchTokens current ≤ reduce_available ∨ current.length = 1)) :
    ∀ batch ∈ batchesGo rest current ct,
      (batchTokens batch ≤ reduce_available ∨ batch.length = 1) ∧
      batch.length ≤ REDUCE_BATCH_MAX := by
  induction rest generalizing current ct with
  | nil =>
    intro batch hb
    by_cases h : current = [] <;> simp [batchesGo, h] at hb
    subst hb
    exact ⟨hP h, hlen⟩
  | cons s rest' ih =>
    intro batch hb
    by_cases hcond : current ≠ [] ∧
        (reduce_available < ct + estimate_tokens s ∨
          REDUCE_BATCH_MAX ≤ current.length)
    · simp only [batchesGo, if_pos hcond, List.mem_cons] at hb
      rcases hb with rfl | hb
      · exact ⟨hP hcond.1, hlen⟩
      · refine ih [s] (estimate_tokens s) ?_ ?_ ?_ batch hb
        · simp [batchTokens]
        · simp [REDUCE_BATCH_MAX]
        · intro _; right; simp
    · simp only [batchesGo, if_neg hcond] at hb
      rcases not_and_or.mp hcond with hcur | hsz
      · have hcur' : current = [] := not_not.mp hcur
        subst hcur'
        have hct0 : ct = 0 := by simpa [batchTokens] using hct
        subst hct0
        refine ih [s] (estimate_tokens s) ?_ ?_ ?_ batch (by simpa using hb)
        · simp [batchTokens]
        · simp [REDUCE_BATCH_MAX]
        · intro _; right; simp
      · push_neg at hsz
        refine ih (current ++ [s]) (ct + estimate_tokens s) ?_ ?_ ?_ batch hb
        · simp [batchTokens, hct]
        · simp only [List.length_append, List.length_singleton]
          omega
        · intro _
          left
          simp only [batchTokens, List.map_append, List.sum_append]
          simp only [batchTokens] at hct
          simp only [List.map_singleton, List.sum_singleton]
          omega

/-- C6 (confirmed).  Every batch emitted by `_build_token_aware_batches`
either has combined token estimate at most
`reduce_available = REDUCE_TOKEN_BUDGET - overhead`, or is a singleton
holding one oversized summary; and no batch exceeds `REDUCE_BATCH_MAX`
summaries. -/
theorem build_token_aware_batches_sound (summaries : List (List Char)) :
    ∀ batch ∈ build_token_aware_batches summaries,
      (batchTokens batch ≤ reduce_available ∨ batch.length = 1) ∧
      batch.length ≤ REDUCE_BATCH_MAX := by
  refine batchesGo_sound summaries [] 0 ?_ ?_ ?_
  · simp [batchTokens]
  · simp [REDUCE_BATCH_MAX]
  · intro h; exact absurd rfl h

/-- Witness for C6 at a concrete summary list and batch. -/
theorem build_token_aware_batches_sound_witness :
    ["ab".toList] ∈ build_token_aware_batches ["ab".toList] ∧
      (batchTokens ["ab".toList] ≤ reduce_available ∨
        (["ab".toList] : List (List Char)).length = 1) ∧
      (["ab".toList] : List (List Char)).length ≤ REDUCE_BATCH_MAX := by
  have hmem : ["ab".toList] ∈ build_token_aware_batches ["ab".toList] := by
    simp [build_token_aware_batches, batchesGo]
  exact ⟨hmem, build_token_aware_batches_sound ["ab".toList] ["ab".toList] hmem⟩

/-! ## Hierarchical reduce base case (C7) -/

/-- C7 (confirmed).  On a one-element summary list, `_hierarchical_reduce`
returns the summary unchanged, makes zero backend calls and emits no
events, for every round budget and round counter. -/
theorem hierarchical_reduce_singleton (backend : Backend)
    (project_path directory_tree s : List Char) (fuel reduce_round : Nat) :
    hierarchical_reduce backend project_path directory_tree fuel [s]
        reduce_round =
      { events := [], calls := [], result := .ok s } := by
  cases fuel <;> simp [hierarchical_reduce]

/-! ## Pre-flight size guard (C3) -/

/-- Token estimate of a replicated character, proved at a symbolic length
so that concrete instances never force the kernel to evaluate the list. -/
theorem estimate_tokens_replicate (n : Nat) (c : Char) :
    estimate_tokens (List.replicate n c) = n / CHARS_PER_TOKEN := by
  simp [estimate_tokens]

/-- C3 (confirmed).  `_call_llm` fails before reaching the backend whenever
the estimate of the space-joined message contents exceeds
`MODEL_CONTEXT_LIMIT`, and the backend is reached exactly when the
estimate is within the limit. -/
theorem call_llm_preflight_guard (tag : CallTag) (messages : List Message)
    (backend : Backend) :
    (MODEL_CONTEXT_LIMIT <
        estimate_tokens (joinWithSpace (messages.map Message.content)) →
      (call_llm_at tag messages backend).sent = false ∧
      (call_llm_at tag messages backend).outcome =
        .error (.payloadTooLarge
          (estimate_tokens (joinWithSpace (messages.map Message.content))))) ∧
    ((call_llm_at tag messages backend).sent = true ↔
      estimate_tokens (joinWithSpace (messages.map Message.content)) ≤
        MODEL_CONTEXT_LIMIT) := by
  constructor
  · intro h
    simp [call_llm_at, if_pos h]
  · by_cases h : MODEL_CONTEXT_LIMIT <
        estimate_tokens (joinWithSpace (messages.map Message.content))
    · simp [call_llm_at, if_pos h]
      omega
    · cases hb : backend messages <;>
        simp [call_llm_at, if_neg h, hb, Nat.not_lt.mp h]

/-- Witness for C3: a single 393 219-character message estimates to
131 073 tokens, one above the hard limit, and is rejected unsent. -/
theorem call_llm_preflight_guard_witness :
    MODEL_CONTEXT_LIMIT <
      estimate_tokens (joinWithSpace
        ([userMsg (List.replicate 393219 'a')].map Message.content)) ∧
    (call_llm_at .single [userMsg (List.replicate 393219 'a')]
      okBackendA).sent = false := by
  have h1 : joinWithSpace
      ([userMsg (List.replicate 393219 'a')].map Message.content) =
      List.replicate 393219 'a' := by
    simp only [List.map_cons, List.map_nil, userMsg, joinWithSpace]
  have h : MODEL_CONTEXT_LIMIT <
      estimate_tokens (joinWithSpace
        ([userMsg (List.replicate 393219 'a')].map Message.content)) := by
    rw [h1, estimate_tokens_replicate]
    decide
  exact ⟨h, ((call_llm_preflight_guard .single _ okBackendA).1 h).1⟩

/-! ## Follow-up Q&A (C9, C10) -/

/-- C9 (confirmed).  With an empty conversation history, `ask` fails with
the no-session error and makes no backend call; with a session present and
a within-limit, successful backend call, `ask` returns the answer and the
history grows by exactly two messages. -/
theorem ask_session_contract (backend : Backend) (question : List Char) :
    ((ask [] question backend).outcome = .error .noSession ∧
      (ask [] question backend).calls = []) ∧
    (∀ (history : List Message) (answer : List Char),
      history ≠ [] →
      estimate_tokens (joinWithSpace
        ((history ++ [userMsg question]).map Message.content)) ≤
        MODEL_CONTEXT_LIMIT →
      backend (history ++ [userMsg question]) = .ok answer →
      (ask history question backend).outcome = .ok answer ∧
      (ask history question backend).history.length = history.length + 2) := by
  constructor
  · simp [ask]
  · intro history answer hne hsize hok
    simp only [List.map_append, List.map_cons, List.map_nil, userMsg] at hsize
    simp only [userMsg] at hok
    simp [ask, if_neg hne, call_llm_at, Nat.not_lt.mpr hsize, hok, userMsg]

/-- Witness for C9 at a concrete session, question and backend. -/
theorem ask_session_contract_witness :
    (ask [sysMsg []] ['q'] okBackendA).outcome = .ok ['a'] ∧
      (ask [sysMsg []] ['q'] okBackendA).history.length = 3 := by
  have h := (ask_session_contract okBackendA ['q']).2 [sysMsg []] ['a']
    (by simp) (by decide) rfl
  exact ⟨h.1, h.2⟩

/-- C10 (confirmed).  `ask` is not atomic on failure: when the `_call_llm`
invocation fails (size guard or backend), the error propagates with the
session history grown by exactly the dangling user question. -/
theorem ask_mutates_history_on_failure (history : List Message)
    (question : List Char) (backend : Backend) (e : CallError)
    (hne : history ≠ [])
    (hfail : (call_llm_at .askCall (history ++ [userMsg question])
      backend).outcome = .error e) :
    (ask history question backend).outcome = .error (.callFailed e) ∧
    (ask history question backend).history =
      history ++ [userMsg question] ∧
    (ask history question backend).history.length = history.length + 1 := by
  simp [ask, if_neg hne, hfail]

/-- Witness for C10: a failing backend leaves the question dangling in the
history. -/
theorem ask_mutates_history_on_failure_witness :
    (ask [sysMsg []] ['q'] failBackendB).outcome =
      .error (.callFailed (.apiFailure ['b'])) ∧
    (ask [sysMsg []] ['q'] failBackendB).history =
      [sysMsg []] ++ [userMsg ['q']] ∧
    (ask [sysMsg []] ['q'] failBackendB).history.length =
      ([sysMsg []] : List Message).length + 1 := by
  refine ask_mutates_history_on_failure [sysMsg []] ['q'] failBackendB
    (.apiFailure ['b']) (by simp [sysMsg]) ?_
  rfl

/-! ## Length bookkeeping for the prompt templates -/

/-- `estimate_tokens` without the redundant `max 0`. -/
theorem estimate_tokens_eq (text : List Char) :
    estimate_tokens text = text.length / CHARS_PER_TOKEN := by
  simp [estimate_tokens]

theorem SYSTEM_PROMPT_length : SYSTEM_PROMPT.length = 1009 := by decide

theorem REDUCE_BATCH_PROMPT_seg_lengths :
    REDUCE_BATCH_PROMPT_seg0.length = 107 ∧
    REDUCE_BATCH_PROMPT_seg1.length = 29 ∧
    REDUCE_BATCH_PROMPT_seg2.length = 42 ∧
    REDUCE_BATCH_PROMPT_seg3.length = 287 := by
  refine ⟨by decide, by decide, by decide, by decide⟩

theorem MAP_CHUNK_PROMPT_seg_lengths :
    MAP_CHUNK_PROMPT_seg0.length = 59 ∧
    MAP_CHUNK_PROMPT_seg1.length = 4 ∧
    MAP_CHUNK_PROMPT_seg2.length = 19 ∧
    MAP_CHUNK_PROMPT_seg3.length = 44 ∧
    MAP_CHUNK_PROMPT_seg4.length = 41 ∧
    MAP_CHUNK_PROMPT_seg5.length = 347 := by
  refine ⟨by decide, by decide, by decide, by decide, by decide, by decide⟩

theorem INITIAL_ANALYSIS_PROMPT_seg_lengths :
    INITIAL_ANALYSIS_PROMPT_seg0.length = 100 ∧
    INITIAL_ANALYSIS_PROMPT_seg1.length = 29 ∧
    INITIAL_ANALYSIS_PROMPT_seg2.length = 23 ∧
    INITIAL_ANALYSIS_PROMPT_seg3.length = 1097 := by
  refine ⟨by decide, by decide, by decide, by decide⟩

/-- Rendered length of the reduce-batch template. -/
theorem REDUCE_BATCH_PROMPT_format_length (p d s : List Char) :
    (REDUCE_BATCH_PROMPT_format p d s).length =
      465 + p.length + d.length + s.length := by
  obtain ⟨h0, h1, h2, h3⟩ := REDUCE_BATCH_PROMPT_seg_lengths
  simp [REDUCE_BATCH_PROMPT_format, h0, h1, h2, h3]
  omega

/-- Rendered length of the map-chunk template. -/
theorem MAP_CHUNK_PROMPT_format_length (i t : Nat) (p d c : List Char) :
    (MAP_CHUNK_PROMPT_format i t p d c).length =
      514 + (natStr i).length + (natStr t).length +
        p.length + d.length + c.length := by
  obtain ⟨h0, h1, h2, h3, h4, h5⟩ := MAP_CHUNK_PROMPT_seg_lengths
  simp [MAP_CHUNK_PROMPT_format, h0, h1, h2, h3, h4, h5]
  omega

/-- Rendered length of the single-call analysis template. -/
theorem INITIAL_ANALYSIS_PROMPT_format_length (p d c : List Char) :
    (INITIAL_ANALYSIS_PROMPT_format p d c).length =
      1249 + p.length + d.length + c.length := by
  obtain ⟨h0, h1, h2, h3⟩ := INITIAL_ANALYSIS_PROMPT_seg_lengths
  simp [INITIAL_ANALYSIS_PROMPT_format, h0, h1, h2, h3]
  omega

theorem natStr_one : natStr 1 = ['1'] := by decide

theorem natStr_two : natStr 2 = ['2'] := by decide

/-- `" ".join` of exactly two contents. -/
theorem joinWithSpace_pair (x y : List Char) :
    joinWithSpace [x, y] = x ++ ' ' :: y := rfl

/-- The overhead `_build_token_aware_batches` computes. -/
theorem reduce_overhead_eq : reduce_overhead = 491 := by
  rw [reduce_overhead, estimate_tokens_eq, estimate_tokens_eq,
    REDUCE_BATCH_PROMPT_format_length, SYSTEM_PROMPT_length]
  decide

/-- The available payload budget of one reduce batch. -/
theorem reduce_available_eq : reduce_available = 89509 := by
  rw [reduce_available, reduce_overhead_eq]
  decide

/-! ## C5: the reduce recursion need not terminate -/

/-- The oversized summary estimates to 50 000 tokens. -/
theorem c5big_est : estimate_tokens c5big = 50000 := by
  rw [c5big, estimate_tokens_replicate]
  decide

/-- `combined` for a singleton batch. -/
theorem combineBatch_singleton (s : List Char) :
    combineBatch [s] = "### Summary ".toList ++ natStr 1 ++ '\n' :: s := by
  rw [combineBatch, mapWithIndex, mapWithIndexGo, mapWithIndexGo]
  simp [List.intercalate, summaryItem]

/-- Two summaries that each overflow half the budget are placed in two
singleton batches. -/
theorem c5_batches :
    build_token_aware_batches [c5big, c5big] = [[c5big], [c5big]] := by
  have h1 : ¬(([] : List (List Char)) ≠ [] ∧
      (reduce_available < 0 + estimate_tokens c5big ∨
        REDUCE_BATCH_MAX ≤ ([] : List (List Char)).length)) :=
    fun h => h.1 rfl
  have h2 : ([c5big] : List (List Char)) ≠ [] ∧
      (reduce_available < estimate_tokens c5big + estimate_tokens c5big ∨
        REDUCE_BATCH_MAX ≤ ([c5big] : List (List Char)).length) := by
    refine ⟨List.cons_ne_nil c5big [], Or.inl ?_⟩
    rw [c5big_est, reduce_available_eq]
    decide
  rw [build_token_aware_batches, batchesGo, if_neg h1]
  rw [List.nil_append, Nat.zero_add]
  conv_lhs => rw [batchesGo]
  rw [if_pos h2]
  conv_lhs => rw [batchesGo]
  rw [if_neg (List.cons_ne_nil c5big [])]

/-- Combined length of the rendered singleton-batch summary block. -/
theorem c5_combined_length : (combineBatch [c5big]).length = 150014 := by
  rw [combineBatch_singleton, List.length_append, List.length_append,
    List.length_cons, show c5big = List.replicate 150000 'a' from rfl,
    List.length_replicate]
  decide

/-- The reduce prompt holding one oversized summary estimates to 50 496
tokens — inside the model context limit, so the guard passes. -/
theorem c5_reduce_prompt_est : estimate_tokens (joinWithSpace
    ([sysMsg SYSTEM_PROMPT,
      userMsg (REDUCE_BATCH_PROMPT_format [] [] (combineBatch [c5big]))].map
        Message.content)) = 50496 := by
  rw [List.map_cons, List.map_cons, List.map_nil]
  rw [show Message.content (sysMsg SYSTEM_PROMPT) = SYSTEM_PROMPT from rfl]
  rw [show Message.content (userMsg (REDUCE_BATCH_PROMPT_format [] []
    (combineBatch [c5big]))) = REDUCE_BATCH_PROMPT_format [] []
    (combineBatch [c5big]) from rfl]
  rw [joinWithSpace_pair, estimate_tokens_eq, List.length_append,
    List.length_cons, SYSTEM_PROMPT_length, REDUCE_BATCH_PROMPT_format_length,
    c5_combined_length]
  decide

/-- The reduce call for one singleton oversized batch passes the pre-flight
guard and the echo backend hands the same oversized summary back. -/
theorem c5_reduce_call (reduce_round batch_index : Nat) :
    reduce_batch_call echoBigBackend reduce_round batch_index [] [] [c5big] =
      { tag := .reduceBatch reduce_round batch_index,
        messages := [sysMsg SYSTEM_PROMPT,
          userMsg (REDUCE_BATCH_PROMPT_format [] []
            (combineBatch [c5big]))],
        sent := true, outcome := .ok c5big } := by
  have hguard : ¬(MODEL_CONTEXT_LIMIT < estimate_tokens (joinWithSpace
      ([sysMsg SYSTEM_PROMPT,
        userMsg (REDUCE_BATCH_PROMPT_format [] [] (combineBatch [c5big]))].map
          Message.content))) := by
    rw [c5_reduce_prompt_est]
    decide
  rw [reduce_batch_call, call_llm_at, if_neg hguard]
  rw [show echoBigBackend [sysMsg SYSTEM_PROMPT,
    userMsg (REDUCE_BATCH_PROMPT_format [] [] (combineBatch [c5big]))] =
    .ok c5big from rfl]

/-- Index-aware map preserves length. -/
theorem mapWithIndexGo_length (f : Nat → α → β) (i : Nat) (l : List α) :
    (mapWithIndexGo f i l).length = l.length := by
  induction l generalizing i with
  | nil => rfl
  | cons a rest ih => simp [mapWithIndexGo, ih]

/-- One reduce round makes exactly one call per batch. -/
theorem runReduceBatches_length (b : Backend) (p t : List Char) (r : Nat)
    (batches : List (List (List Char))) :
    (runReduceBatches b p t r batches).length = batches.length := by
  rw [runReduceBatches, mapWithIndex, mapWithIndexGo_length]

/-- Generic shape of one successful reduce round that leaves more than one
intermediate summary: the result is whatever the recursion on the
intermediates returns. -/
theorem hierarchical_reduce_succ_result (b : Backend) (p t : List Char)
    (f r : Nat) (s : List (List Char)) (h1 : ¬ s.length = 1)
    (hfc : firstCallError (runReduceBatches b p t r
      (build_token_aware_batches s)) = none)
    (hlen : 1 < (List.map okText (runReduceBatches b p t r
      (build_token_aware_batches s))).length) :
    (hierarchical_reduce b p t (f + 1) s r).result =
      (hierarchical_reduce b p t f
        (List.map okText (runReduceBatches b p t r
          (build_token_aware_batches s))) (r + 1)).result := by
  have hb : ¬ (build_token_aware_batches s).length = 0 := by
    rw [List.length_map, runReduceBatches_length] at hlen
    omega
  rw [hierarchical_reduce, if_neg h1]
  simp only [if_neg hb, hfc, if_pos hlen]

/-- The two singleton batches of the `c5` round become two reduce calls. -/
theorem c5_run_batches (r : Nat) :
    runReduceBatches echoBigBackend [] [] r
      (build_token_aware_batches [c5big, c5big]) =
      [reduce_batch_call echoBigBackend r 1 [] [] [c5big],
       reduce_batch_call echoBigBackend r 2 [] [] [c5big]] := by
  rw [c5_batches, runReduceBatches, mapWithIndex, mapWithIndexGo,
    mapWithIndexGo, mapWithIndexGo]

/-- The round's intermediates are again two oversized summaries. -/
theorem c5_map_okText (r : Nat) :
    List.map okText (runReduceBatches echoBigBackend [] [] r
      (build_token_aware_batches [c5big, c5big])) = [c5big, c5big] := by
  rw [c5_run_batches, c5_reduce_call, c5_reduce_call, List.map_cons,
    List.map_cons, List.map_nil]
  rfl

/-- No call of the `c5` round fails. -/
theorem c5_first_error (r : Nat) :
    firstCallError (runReduceBatches echoBigBackend [] [] r
      (build_token_aware_batches [c5big, c5big])) = none := by
  rw [c5_run_batches, c5_reduce_call, c5_reduce_call]
  rfl

/-- One `c5` round consumes one unit of round budget and returns to the
same two-oversized-summaries state. -/
theorem c5_step (f r : Nat) :
    (hierarchical_reduce echoBigBackend [] [] (f + 1) [c5big, c5big] r).result =
      (hierarchical_reduce echoBigBackend [] [] f [c5big, c5big]
        (r + 1)).result := by
  have h1 : ¬ ([c5big, c5big] : List (List Char)).length = 1 := by
    intro h
    rw [List.length_cons, List.length_cons, List.length_nil] at h
    omega
  have hlen : 1 < (List.map okText (runReduceBatches echoBigBackend [] [] r
      (build_token_aware_batches [c5big, c5big]))).length := by
    rw [c5_map_okText, List.length_cons, List.length_cons, List.length_nil]
    omega
  have h := hierarchical_reduce_succ_result echoBigBackend [] [] f r
    [c5big, c5big] h1 (c5_first_error r) hlen
  rw [h, c5_map_okText]

/-- On `[c5big, c5big]` every reduce round makes two singleton-batch calls
and gets two oversized summaries back, so no round budget suffices: the
recursion never terminates. -/
theorem c5_reduce_no_fuel (fuel reduce_round : Nat) :
    (hierarchical_reduce echoBigBackend [] [] fuel [c5big, c5big]
      reduce_round).result = .error .outOfFuel := by
  induction fuel generalizing reduce_round with
  | zero =>
    rw [hierarchical_reduce]
    rw [if_neg (show ¬ ([c5big, c5big] : List (List Char)).length = 1 by
      intro h
      rw [List.length_cons, List.length_cons, List.length_nil] at h
      omega)]
  | succ f ih =>
    rw [c5_step]
    exact ih (reduce_round + 1)

/-- C5 counterexample: with two summaries the claimed round bound is
`ceil(log_20 2) = 1`, but on `[c5big, c5big]` with the echoing backend even
a budget of 10 rounds leaves the recursion unfinished. -/
theorem hierarchical_reduce_log_bound_fails :
    (hierarchical_reduce echoBigBackend [] [] 10 [c5big, c5big] 1).result =
      .error .outOfFuel :=
  c5_reduce_no_fuel 10 1

/-- The batch-accumulation loop emits at most one batch per input summary
(plus the pending one). -/
theorem batchesGo_length (rest current : List (List Char)) (ct : Nat) :
    (batchesGo rest current ct).length ≤
      rest.length + (if current = [] then 0 else 1) := by
  induction rest generalizing current ct with
  | nil => by_cases h : current = [] <;> simp [batchesGo, h]
  | cons s rest' ih =>
    by_cases hcond : current ≠ [] ∧
        (reduce_available < ct + estimate_tokens s ∨
          REDUCE_BATCH_MAX ≤ current.length)
    · rw [batchesGo, if_pos hcond]
      have h := ih [s] (estimate_tokens s)
      simp only [List.length_cons] at h ⊢
      rw [if_neg hcond.1]
      have : ([s] : List (List Char)) = [] ↔ False := by simp
      simp only [this, if_false] at h
      omega
    · rw [batchesGo, if_neg hcond]
      have h := ih (current ++ [s]) (ct + estimate_tokens s)
      have hne : ¬(current ++ [s] = []) := by simp
      rw [if_neg hne] at h
      simp only [List.length_cons]
      by_cases hc : current = []
      · rw [if_pos hc]; omega
      · rw [if_neg hc]; omega

/-- C5 (amended).  Every reduce round produces at most as many batches as
it received summaries; but the claimed round bound `ceil(log_batchsize |S|)`
— and termination itself — do not hold in general: when every summary
exceeds the available batch budget, each round emits one singleton batch
per summary, and a backend that returns equally oversized summaries keeps
the summary count constant, so the recursion never finishes under any
round budget. -/
theorem hierarchical_reduce_rounds_amended :
    (∀ summaries : List (List Char),
      (build_token_aware_batches summaries).length ≤ summaries.length) ∧
    (∀ fuel reduce_round : Nat,
      (hierarchical_reduce echoBigBackend [] [] fuel [c5big, c5big]
        reduce_round).result = .error .outOfFuel) := by
  constructor
  · intro summaries
    have h := batchesGo_length summaries [] 0
    simpa [build_token_aware_batches] using h
  · exact fun fuel reduce_round => c5_reduce_no_fuel fuel reduce_round

/-! ## C2: a failing reduce batch ends the stream in one error event -/

/-- Members of an index-aware map are images of the mapped function. -/
theorem mem_mapWithIndexGo {f : Nat → α → β} {i : Nat} {l : List α} {b : β}
    (h : b ∈ mapWithIndexGo f i l) : ∃ j a, b = f j a := by
  induction l generalizing i with
  | nil => simp [mapWithIndexGo] at h
  | cons x rest ih =>
    rw [mapWithIndexGo] at h
    rcases List.mem_cons.mp h with rfl | h'
    · exact ⟨i, x, rfl⟩
    · exact ih h'

/-- `_call_llm` reports the tag of its call site unchanged. -/
theorem call_llm_at_tag (tag : CallTag) (messages : List Message)
    (backend : Backend) : (call_llm_at tag messages backend).tag = tag := by
  rw [call_llm_at]
  split
  · rfl
  · split <;> rfl

/-- If no call of a round failed, every call succeeded. -/
theorem firstCallError_none_all_ok (calls : List LlmCall)
    (h : firstCallError calls = none) : ∀ c ∈ calls, isOkCall c = true := by
  intro c hc
  rw [firstCallError] at h
  induction calls with
  | nil => simp at hc
  | cons d rest ih =>
    rw [List.findSome?_cons] at h
    rcases List.mem_cons.mp hc with rfl | hc'
    · rw [isOkCall]
      cases hd : c.outcome with
      | ok t => rfl
      | error e => rw [hd] at h; simp at h
    · cases hd : d.outcome with
      | ok t => rw [hd] at h; exact ih h hc'
      | error e => rw [hd] at h; simp at h

/-- Every completion progress event is an image of the event builder. -/
theorem mem_completedEvents {mk : Nat → Event} {calls : List LlmCall}
    {ev : Event} (h : ev ∈ completedEvents mk calls) : ∃ k, ev = mk k := by
  rw [completedEvents] at h
  obtain ⟨j, _, rfl⟩ := List.mem_map.mp h
  exact ⟨j + 1, rfl⟩

/-- An event stream none of whose events satisfy `p` counts zero. -/
theorem countEvents_eq_zero (p : Event → Bool) (evs : List Event)
    (h : ∀ ev ∈ evs, p ev = false) : countEvents p evs = 0 := by
  rw [countEvents, List.length_eq_zero]
  exact List.filter_eq_nil_iff.mpr (by simpa using h)

/-- Unfolding equation: a reduce call with zero round budget and more than
one summary stops with the fuel marker. -/
theorem hierarchical_reduce_zero_eq (b : Backend) (p t : List Char)
    (s : List (List Char)) (r : Nat) (h : ¬ s.length = 1) :
    hierarchical_reduce b p t 0 s r =
      { events := [], calls := [], result := .error .outOfFuel } := by
  rw [hierarchical_reduce, if_neg h]

/-- Unfolding equation for one reduce round with budget left, with the
local bindings of the source expanded. -/
theorem hierarchical_reduce_succ_eq (b : Backend) (p t : List Char)
    (f : Nat) (s : List (List Char)) (r : Nat) (h : ¬ s.length = 1) :
    hierarchical_reduce b p t (f + 1) s r =
      (if (build_token_aware_batches s).length = 0 then
        { events := [Event.reducingStart r s.length
            (build_token_aware_batches s).length],
          calls := [], result := .error .emptyReduce }
      else
        match firstCallError (runReduceBatches b p t r
          (build_token_aware_batches s)) with
        | some e =>
          { events := Event.reducingStart r s.length
              (build_token_aware_batches s).length ::
              completedEvents (fun k => Event.reducingBatch r k
                (build_token_aware_batches s).length)
                (runReduceBatches b p t r (build_token_aware_batches s)),
            calls := runReduceBatches b p t r (build_token_aware_batches s),
            result := .error (.call e) }
        | none =>
          if 1 < (List.map okText (runReduceBatches b p t r
              (build_token_aware_batches s))).length then
            { events := (Event.reducingStart r s.length
                (build_token_aware_batches s).length ::
                completedEvents (fun k => Event.reducingBatch r k
                  (build_token_aware_batches s).length)
                  (runReduceBatches b p t r (build_token_aware_batches s))) ++
                (hierarchical_reduce b p t f (List.map okText
                  (runReduceBatches b p t r (build_token_aware_batches s)))
                  (r + 1)).events,
              calls := runReduceBatches b p t r (build_token_aware_batches s) ++
                (hierarchical_reduce b p t f (List.map okText
                  (runReduceBatches b p t r (build_token_aware_batches s)))
                  (r + 1)).calls,
              result := (hierarchical_reduce b p t f (List.map okText
                (runReduceBatches b p t r (build_token_aware_batches s)))
                (r + 1)).result }
          else
            { events := Event.reducingStart r s.length
                (build_token_aware_batches s).length ::
                completedEvents (fun k => Event.reducingBatch r k
                  (build_token_aware_batches s).length)
                  (runReduceBatches b p t r (build_token_aware_batches s)),
              calls := runReduceBatches b p t r (build_token_aware_batches s),
              result := .ok (List.map okText (runReduceBatches b p t r
                (build_token_aware_batches s))).headI }) := by
  rw [hierarchical_reduce, if_neg h]

/-- Every call `_hierarchical_reduce` makes is a `_reduce_batch` call. -/
theorem hierarchical_reduce_calls_tags (b : Backend) (p t : List Char)
    (fuel : Nat) (s : List (List Char)) (r : Nat) :
    ∀ c ∈ (hierarchical_reduce b p t fuel s r).calls,
      isReduceBatchTag c.tag = true := by
  induction fuel generalizing s r with
  | zero =>
    intro c hc
    by_cases h1 : s.length = 1
    · rw [hierarchical_reduce, if_pos h1] at hc
      simp at hc
    · rw [hierarchical_reduce_zero_eq b p t s r h1] at hc
      simp at hc
  | succ f ih =>
    intro c hc
    by_cases h1 : s.length = 1
    · rw [hierarchical_reduce, if_pos h1] at hc
      simp at hc
    · rw [hierarchical_reduce_succ_eq b p t f s r h1] at hc
      have hrun : ∀ d ∈ runReduceBatches b p t r (build_token_aware_batches s),
          isReduceBatchTag d.tag = true := by
        intro d hd
        rw [runReduceBatches, mapWithIndex] at hd
        obtain ⟨j, a, rfl⟩ := mem_mapWithIndexGo hd
        rw [reduce_batch_call, call_llm_at_tag]
        rfl
      split at hc
      · simp at hc
      · split at hc
        · exact hrun c hc
        · split at hc
          · rcases List.mem_append.mp hc with hl | hr
            · exact hrun c hl
            · exact ih _ _ c hr
          · exact hrun c hc

/-- `_hierarchical_reduce` only pushes `reducing` progress events: never an
`error` or `report` event. -/
theorem hierarchical_reduce_events_kinds (b : Backend) (p t : List Char)
    (fuel : Nat) (s : List (List Char)) (r : Nat) :
    ∀ ev ∈ (hierarchical_reduce b p t fuel s r).events,
      isErrorEvent ev = false ∧ isReportEvent ev = false := by
  induction fuel generalizing s r with
  | zero =>
    intro ev he
    by_cases h1 : s.length = 1
    · rw [hierarchical_reduce, if_pos h1] at he
      simp at he
    · rw [hierarchical_reduce_zero_eq b p t s r h1] at he
      simp at he
  | succ f ih =>
    intro ev he
    by_cases h1 : s.length = 1
    · rw [hierarchical_reduce, if_pos h1] at he
      simp at he
    · rw [hierarchical_reduce_succ_eq b p t f s r h1] at he
      have hstart : ∀ n m : Nat,
          isErrorEvent (Event.reducingStart r n m) = false ∧
          isReportEvent (Event.reducingStart r n m) = false :=
        fun n m => ⟨rfl, rfl⟩
      have hcomp : ∀ ev, (ev ∈ completedEvents
          (fun k => Event.reducingBatch r k
            (build_token_aware_batches s).length)
          (runReduceBatches b p t r (build_token_aware_batches s))) →
          isErrorEvent ev = false ∧ isReportEvent ev = false := by
        intro ev hev
        obtain ⟨k, rfl⟩ := mem_completedEvents hev
        exact ⟨rfl, rfl⟩
      split at he
      · rcases List.mem_singleton.mp he with rfl
        exact hstart _ _
      · split at he
        · rcases List.mem_cons.mp he with rfl | he'
          · exact hstart _ _
          · exact hcomp ev he'
        · split at he
          · rcases List.mem_append.mp he with hl | hr
            · rcases List.mem_cons.mp hl with rfl | he'
              · exact hstart _ _
              · exact hcomp ev he'
            · exact ih _ _ ev hr
          · rcases List.mem_cons.mp he with rfl | he'
            · exact hstart _ _
            · exact hcomp ev he'

/-- If any call in the reduce trace failed, the reduce result is that
round's propagated backend error (never a success and never the fuel
marker). -/
theorem hierarchical_reduce_fail_result (b : Backend) (p t : List Char)
    (fuel : Nat) (s : List (List Char)) (r : Nat)
    (h : ∃ c ∈ (hierarchical_reduce b p t fuel s r).calls,
      isOkCall c = false) :
    ∃ e, (hierarchical_reduce b p t fuel s r).result = .error (.call e) := by
  induction fuel generalizing s r with
  | zero =>
    obtain ⟨c, hc, _⟩ := h
    by_cases h1 : s.length = 1
    · rw [hierarchical_reduce, if_pos h1] at hc
      simp at hc
    · rw [hierarchical_reduce_zero_eq b p t s r h1] at hc
      simp at hc
  | succ f ih =>
    obtain ⟨c, hc, hcfail⟩ := h
    by_cases h1 : s.length = 1
    · rw [hierarchical_reduce, if_pos h1] at hc
      simp at hc
    · rw [hierarchical_reduce_succ_eq b p t f s r h1] at hc ⊢
      split at hc
      · simp at hc
      · rename_i h2
        rw [if_neg h2]
        split at hc
        · rename_i e hfc
          exact ⟨e, rfl⟩
        · rename_i hfc
          have hall := firstCallError_none_all_ok _ hfc
          split at hc
          · rename_i hlen
            rw [if_pos hlen]
            rcases List.mem_append.mp hc with hl | hr
            · exact absurd (hall c hl) (by rw [hcfail]; simp)
            · obtain ⟨e, he⟩ := ih _ _ ⟨c, hr, hcfail⟩
              exact ⟨e, he⟩
          · exact absurd (hall c hc) (by rw [hcfail]; simp)

/-- Every map-phase call carries a `mapChunk` tag. -/
theorem runMapCalls_tags (b : Backend) (p t : List Char) (total : Nat)
    (chunks : List (List Char)) :
    ∀ c ∈ runMapCalls b p t total chunks,
      ∃ i, c.tag = .mapChunk i total := by
  intro c hc
  rw [runMapCalls, mapWithIndex] at hc
  obtain ⟨j, a, rfl⟩ := mem_mapWithIndexGo hc
  exact ⟨j + 1, by rw [map_chunk_call, call_llm_at_tag]⟩

/-- Unfolding equation for the single-shot route, with the local bindings
of the source expanded. -/
theorem analyze_stream_single_eq (scan : ScanResult) (backend : Backend)
    (fuel : Nat) (history0 : List Message)
    (hroute : routeTokens scan ≤ MAX_PROMPT_TOKENS) :
    analyze_project_stream scan backend fuel history0 =
      (match (call_llm_at .single [sysMsg SYSTEM_PROMPT,
          userMsg (INITIAL_ANALYSIS_PROMPT_format scan.project_path
            scan.directory_tree scan.code_contents)] backend).outcome with
       | .ok rep =>
         { events := [.chunking 1, .mapping 1 1, .report rep],
           calls := [call_llm_at .single [sysMsg SYSTEM_PROMPT,
             userMsg (INITIAL_ANALYSIS_PROMPT_format scan.project_path
               scan.directory_tree scan.code_contents)] backend],
           history := [sysMsg SYSTEM_PROMPT,
             userMsg (INITIAL_ANALYSIS_PROMPT_format scan.project_path
               scan.directory_tree scan.code_contents)] ++
             [assistantMsg rep] }
       | .error e =>
         { events := [.chunking 1, .mapping 1 1, .error (.call e)],
           calls := [call_llm_at .single [sysMsg SYSTEM_PROMPT,
             userMsg (INITIAL_ANALYSIS_PROMPT_format scan.project_path
               scan.directory_tree scan.code_contents)] backend],
           history := [sysMsg SYSTEM_PROMPT,
             userMsg (INITIAL_ANALYSIS_PROMPT_format scan.project_path
               scan.directory_tree scan.code_contents)] }) := by
  rw [analyze_project_stream, if_pos hroute]

/-- Unfolding equation for the map-reduce route, with the local bindings
of the source expanded. -/
theorem analyze_stream_mapreduce_eq (scan : ScanResult) (backend : Backend)
    (fuel : Nat) (history0 : List Message)
    (hroute : ¬ routeTokens scan ≤ MAX_PROMPT_TOKENS) :
    analyze_project_stream scan backend fuel history0 =
      (match firstCallError (runMapPhase scan backend) with
       | some e =>
         { events := [Event.chunking (runChunks scan).length,
             Event.mapping 0 (runChunks scan).length] ++
             completedEvents (fun k => .mapping k (runChunks scan).length)
               (runMapPhase scan backend) ++ [.error (.call e)],
           calls := runMapPhase scan backend, history := history0 }
       | none =>
         match (runReducePhase scan backend fuel).result with
         | .error e =>
           { events := [Event.chunking (runChunks scan).length,
               Event.mapping 0 (runChunks scan).length] ++
               completedEvents (fun k => .mapping k (runChunks scan).length)
                 (runMapPhase scan backend) ++
               (runReducePhase scan backend fuel).events ++ [.error e],
             calls := runMapPhase scan backend ++
               (runReducePhase scan backend fuel).calls,
             history := history0 }
         | .ok consolidated =>
           match (final_synthesis_call backend scan.project_path
               scan.directory_tree consolidated
               (runChunks scan).length).outcome with
           | .error e =>
             { events := [Event.chunking (runChunks scan).length,
                 Event.mapping 0 (runChunks scan).length] ++
                 completedEvents (fun k => .mapping k (runChunks scan).length)
                   (runMapPhase scan backend) ++
                 (runReducePhase scan backend fuel).events ++
                 [.error (.call e)],
               calls := runMapPhase scan backend ++
                 (runReducePhase scan backend fuel).calls ++
                 [final_synthesis_call backend scan.project_path
                   scan.directory_tree consolidated (runChunks scan).length],
               history := history0 }
           | .ok rep =>
             { events := [Event.chunking (runChunks scan).length,
                 Event.mapping 0 (runChunks scan).length] ++
                 completedEvents (fun k => .mapping k (runChunks scan).length)
                   (runMapPhase scan backend) ++
                 (runReducePhase scan backend fuel).events ++ [.report rep],
               calls := runMapPhase scan backend ++
                 (runReducePhase scan backend fuel).calls ++
                 [final_synthesis_call backend scan.project_path
                   scan.directory_tree consolidated (runChunks scan).length],
               history := seedHistory scan.project_path scan.directory_tree
                 rep }) := by
  rw [analyze_project_stream, if_neg hroute]

/-- Calls of the single-shot route, independent of the outcome. -/
theorem analyze_stream_single_calls (scan : ScanResult) (backend : Backend)
    (fuel : Nat) (history0 : List Message)
    (hroute : routeTokens scan ≤ MAX_PROMPT_TOKENS) :
    (analyze_project_stream scan backend fuel history0).calls =
      [call_llm_at .single [sysMsg SYSTEM_PROMPT,
        userMsg (INITIAL_ANALYSIS_PROMPT_format scan.project_path
          scan.directory_tree scan.code_contents)] backend] := by
  rw [analyze_stream_single_eq scan backend fuel history0 hroute]
  split <;> rfl

/-- Calls of a map-reduce run whose map phase failed. -/
theorem analyze_stream_map_fail_calls (scan : ScanResult) (backend : Backend)
    (fuel : Nat) (history0 : List Message) (e : CallError)
    (hroute : ¬ routeTokens scan ≤ MAX_PROMPT_TOKENS)
    (hm : firstCallError (runMapPhase scan backend) = some e) :
    (analyze_project_stream scan backend fuel history0).calls =
      runMapPhase scan backend := by
  rw [analyze_stream_mapreduce_eq scan backend fuel history0 hroute, hm]

/-- Full outcome of a map-reduce run whose reduce phase failed. -/
theorem analyze_stream_reduce_error_eq (scan : ScanResult) (backend : Backend)
    (fuel : Nat) (history0 : List Message) (e : RunError)
    (hroute : ¬ routeTokens scan ≤ MAX_PROMPT_TOKENS)
    (hm : firstCallError (runMapPhase scan backend) = none)
    (hr : (runReducePhase scan backend fuel).result = .error e) :
    analyze_project_stream scan backend fuel history0 =
      { events := [Event.chunking (runChunks scan).length,
          Event.mapping 0 (runChunks scan).length] ++
          completedEvents (fun k => .mapping k (runChunks scan).length)
            (runMapPhase scan backend) ++
          (runReducePhase scan backend fuel).events ++ [.error e],
        calls := runMapPhase scan backend ++
          (runReducePhase scan backend fuel).calls,
        history := history0 } := by
  rw [analyze_stream_mapreduce_eq scan backend fuel history0 hroute, hm, hr]

/-- Calls of a map-reduce run whose reduce phase succeeded. -/
theorem analyze_stream_reduce_ok_calls (scan : ScanResult) (backend : Backend)
    (fuel : Nat) (history0 : List Message) (consolidated : List Char)
    (hroute : ¬ routeTokens scan ≤ MAX_PROMPT_TOKENS)
    (hm : firstCallError (runMapPhase scan backend) = none)
    (hr : (runReducePhase scan backend fuel).result = .ok consolidated) :
    (analyze_project_stream scan backend fuel history0).calls =
      runMapPhase scan backend ++ (runReducePhase scan backend fuel).calls ++
        [final_synthesis_call backend scan.project_path scan.directory_tree
          consolidated (runChunks scan).length] := by
  rw [analyze_stream_mapreduce_eq scan backend fuel history0 hroute]
  simp only [hm, hr]
  split <;> rfl

/-- Event counting distributes over concatenation. -/
theorem countEvents_append (p : Event → Bool) (xs ys : List Event) :
    countEvents p (xs ++ ys) = countEvents p xs + countEvents p ys := by
  simp [countEvents, List.filter_append]

/-- A stream of the shape `A ++ (B ++ (C ++ [e]))` ends in `e`. -/
theorem events_getLast_concat (A B C : List Event) (e : Event) :
    (A ++ (B ++ (C ++ [e]))).getLast? = some e := by
  rw [List.getLast?_append_of_ne_nil A (by simp),
    List.getLast?_append_of_ne_nil B (by simp),
    List.getLast?_append_of_ne_nil C (by simp)]
  rfl

/-- A reduce-batch tag names a round and a batch index. -/
theorem isReduceBatchTag_eq {tag : CallTag}
    (h : isReduceBatchTag tag = true) : ∃ r i, tag = .reduceBatch r i := by
  cases tag with
  | reduceBatch r i => exact ⟨r, i, rfl⟩
  | single => simp [isReduceBatchTag] at h
  | mapChunk i t => simp [isReduceBatchTag] at h
  | synthesis => simp [isReduceBatchTag] at h
  | askCall => simp [isReduceBatchTag] at h

/-- C2 (confirmed).  If any `_reduce_batch` backend call of a run fails,
the run's event stream contains exactly one `error` event, zero `report`
events, ends with the `error` event, and `_final_synthesis` is never
invoked.  The stream model is a total function, so the exception cannot
escape the generator: it is converted into the terminal `error` event. -/
theorem analyze_stream_reduce_failure (scan : ScanResult) (backend : Backend)
    (fuel : Nat) (history0 : List Message)
    (hfail : ∃ c ∈ (analyze_project_stream scan backend fuel history0).calls,
      isReduceBatchTag c.tag = true ∧ isOkCall c = false) :
    countEvents isErrorEvent
        (analyze_project_stream scan backend fuel history0).events = 1 ∧
    countEvents isReportEvent
        (analyze_project_stream scan backend fuel history0).events = 0 ∧
    (∀ c ∈ (analyze_project_stream scan backend fuel history0).calls,
      c.tag ≠ .synthesis) ∧
    (∃ e, (analyze_project_stream scan backend fuel history0).events.getLast? =
      some (.error e)) := by
  obtain ⟨c0, hc0, htag0, hok0⟩ := hfail
  by_cases hroute : routeTokens scan ≤ MAX_PROMPT_TOKENS
  · exfalso
    rw [analyze_stream_single_calls scan backend fuel history0 hroute] at hc0
    rcases List.mem_singleton.mp hc0 with rfl
    rw [call_llm_at_tag] at htag0
    simp [isReduceBatchTag] at htag0
  · cases hm : firstCallError (runMapPhase scan backend) with
    | some e =>
      exfalso
      rw [analyze_stream_map_fail_calls scan backend fuel history0 e hroute
        hm] at hc0
      rw [runMapPhase] at hc0
      obtain ⟨i, hi⟩ := runMapCalls_tags backend scan.project_path
        scan.directory_tree (runChunks scan).length (runChunks scan) c0 hc0
      rw [hi] at htag0
      simp [isReduceBatchTag] at htag0
    | none =>
      cases hr : (runReducePhase scan backend fuel).result with
      | ok consolidated =>
        exfalso
        rw [analyze_stream_reduce_ok_calls scan backend fuel history0
          consolidated hroute hm hr] at hc0
        rcases List.mem_append.mp hc0 with h1 | h2
        · rcases List.mem_append.mp h1 with hmap | hred
          · rw [runMapPhase] at hmap
            obtain ⟨i, hi⟩ := runMapCalls_tags backend scan.project_path
              scan.directory_tree (runChunks scan).length (runChunks scan) c0
              hmap
            rw [hi] at htag0
            simp [isReduceBatchTag] at htag0
          · rw [runReducePhase] at hred
            obtain ⟨e, he⟩ := hierarchical_reduce_fail_result backend
              scan.project_path scan.directory_tree fuel
              (List.map okText (runMapPhase scan backend)) 1 ⟨c0, hred, hok0⟩
            rw [runReducePhase] at hr
            rw [hr] at he
            cases he
        · rcases List.mem_singleton.mp h2 with rfl
          rw [final_synthesis_call, call_llm_at_tag] at htag0
          simp [isReduceBatchTag] at htag0
      | error e =>
        rw [analyze_stream_reduce_error_eq scan backend fuel history0 e
          hroute hm hr]
        have hcompE : ∀ p : Event → Bool,
            (∀ k total : Nat, p (.mapping k total) = false) →
            countEvents p (completedEvents
              (fun k => .mapping k (runChunks scan).length)
              (runMapPhase scan backend)) = 0 := by
          intro p hp
          refine countEvents_eq_zero p _ ?_
          intro ev hev
          obtain ⟨k, rfl⟩ := mem_completedEvents hev
          exact hp k _
        have hredK := hierarchical_reduce_events_kinds backend
          scan.project_path scan.directory_tree fuel
          (List.map okText (runMapPhase scan backend)) 1
        have hredE : ∀ p : Event → Bool,
            (∀ ev, isErrorEvent ev = false ∧ isReportEvent ev = false →
              p ev = false) →
            countEvents p (runReducePhase scan backend fuel).events = 0 := by
          intro p hp
          refine countEvents_eq_zero p _ ?_
          intro ev hev
          rw [runReducePhase] at hev
          exact hp ev (hredK ev hev)
        refine ⟨?_, ?_, ?_, ?_⟩
        · rw [show ([Event.chunking (runChunks scan).length,
              Event.mapping 0 (runChunks scan).length] ++
              completedEvents (fun k => .mapping k (runChunks scan).length)
                (runMapPhase scan backend) ++
              (runReducePhase scan backend fuel).events ++
              [Event.error e] : List Event) =
            [Event.chunking (runChunks scan).length,
              Event.mapping 0 (runChunks scan).length] ++
              (completedEvents (fun k => .mapping k (runChunks scan).length)
                (runMapPhase scan backend) ++
              ((runReducePhase scan backend fuel).events ++
              [Event.error e])) from by simp]
          rw [countEvents_append, countEvents_append, countEvents_append]
          rw [hcompE isErrorEvent (fun k total => rfl),
            hredE isErrorEvent (fun ev h => h.1)]
          rfl
        · rw [show ([Event.chunking (runChunks scan).length,
              Event.mapping 0 (runChunks scan).length] ++
              completedEvents (fun k => .mapping k (runChunks scan).length)
                (runMapPhase scan backend) ++
              (runReducePhase scan backend fuel).events ++
              [Event.error e] : List Event) =
            [Event.chunking (runChunks scan).length,
              Event.mapping 0 (runChunks scan).length] ++
              (completedEvents (fun k => .mapping k (runChunks scan).length)
                (runMapPhase scan backend) ++
              ((runReducePhase scan backend fuel).events ++
              [Event.error e])) from by simp]
          rw [countEvents_append, countEvents_append, countEvents_append]
          rw [hcompE isReportEvent (fun k total => rfl),
            hredE isReportEvent (fun ev h => h.2)]
          rfl
        · intro c hc
          rcases List.mem_append.mp hc with hmap | hred
          · rw [runMapPhase] at hmap
            obtain ⟨i, hi⟩ := runMapCalls_tags backend scan.project_path
              scan.directory_tree (runChunks scan).length (runChunks scan) c
              hmap
            rw [hi]
            exact fun h => CallTag.noConfusion h
          · rw [runReducePhase] at hred
            have := hierarchical_reduce_calls_tags backend scan.project_path
              scan.directory_tree fuel
              (List.map okText (runMapPhase scan backend)) 1 c hred
            obtain ⟨rr, ii, hti⟩ := isReduceBatchTag_eq this
            rw [hti]
            exact fun h => CallTag.noConfusion h
        · refine ⟨e, ?_⟩
          rw [show ([Event.chunking (runChunks scan).length,
              Event.mapping 0 (runChunks scan).length] ++
              completedEvents (fun k => .mapping k (runChunks scan).length)
                (runMapPhase scan backend) ++
              (runReducePhase scan backend fuel).events ++
              [Event.error e] : List Event) =
            [Event.chunking (runChunks scan).length,
              Event.mapping 0 (runChunks scan).length] ++
              (completedEvents (fun k => .mapping k (runChunks scan).length)
                (runMapPhase scan backend) ++
              ((runReducePhase scan backend fuel).events ++
              [Event.error e])) from by simp]
          exact events_getLast_concat _ _ _ _

/-! ## C2: concrete witness run — two map chunks, one failing reduce call -/

/-- Splitting a line-break-free run of `'a'`s accumulates it into the one
pending line. -/
theorem splitlinesGo_replicate_a (n : Nat) : ∀ acc : List Char,
    splitlinesGo acc (List.replicate (n + 1) 'a') =
      [acc.reverse ++ List.replicate (n + 1) 'a'] := by
  induction n with
  | zero =>
    intro acc
    show splitlinesGo acc ['a'] = [acc.reverse ++ ['a']]
    rw [splitlinesGo, if_neg (by decide : ¬ isLineBreak 'a' = true),
      List.reverse_cons]
  | succ m ih =>
    intro acc
    rw [show List.replicate (m + 1 + 1) 'a' =
      'a' :: 'a' :: List.replicate m 'a' from rfl]
    rw [splitlinesGo, if_neg (by decide : ¬ ('a' = '\r' ∧ 'a' = '\n')),
      if_neg (by decide : ¬ isLineBreak 'a' = true)]
    rw [show ('a' :: List.replicate m 'a' : List Char) =
      List.replicate (m + 1) 'a' from rfl]
    rw [ih ('a' :: acc), List.reverse_cons, List.append_assoc,
      List.singleton_append]

/-- A nonempty run of `'a'`s is a single `splitlines` line. -/
theorem splitlines_replicate_a (n : Nat) :
    splitlines (List.replicate (n + 1) 'a') = [List.replicate (n + 1) 'a'] := by
  rw [splitlines, splitlinesGo_replicate_a n [], List.reverse_nil,
    List.nil_append]

/-- Hard-splitting a run of length `j + 1` with `k + 1 < j + 1 ≤ 2 * (k + 1)`
yields exactly one full piece and one remainder piece. -/
theorem hardSplit_replicate_two (k j : Nat) (c : Char) (h1 : k < j)
    (h2 : j + 1 ≤ 2 * (k + 1)) :
    hardSplit (k + 1) (List.replicate (j + 1) c) =
      [List.replicate (k + 1) c, List.replicate (j - k) c] := by
  rw [List.replicate_succ, hardSplit, ← List.replicate_succ,
    List.take_replicate, List.drop_replicate,
    min_eq_left (by omega : k + 1 ≤ j + 1),
    show j + 1 - (k + 1) = j - k from by omega,
    show j - k = j - k - 1 + 1 from by omega]
  conv_lhs => rw [show List.replicate (j - k - 1 + 1) c =
    c :: List.replicate (j - k - 1) c from rfl, hardSplit]
  rw [show (c :: List.replicate (j - k - 1) c : List Char) =
    List.replicate (j - k - 1 + 1) c from rfl,
    List.take_replicate, List.drop_replicate,
    min_eq_right (by omega : j - k - 1 + 1 ≤ k + 1),
    show j - k - 1 + 1 - (k + 1) = 0 from by omega,
    show List.replicate 0 c = ([] : List Char) from rfl, hardSplit]

/-- A single line over the character budget goes straight to the hard
split. -/
theorem chunkLoop_single_oversized (m : Nat) (line : List Char)
    (h : m < line.length) :
    chunkLoop m [line] [] 0 = hardSplit m line := by
  rw [chunkLoop, if_pos h, if_pos rfl, chunkLoop, if_pos rfl,
    List.nil_append, List.append_nil]

/-- Routing estimate of the witness scan: 134 085 tokens, above the
single-call threshold. -/
theorem c2_route : ¬ routeTokens c2Scan ≤ MAX_PROMPT_TOKENS := by
  rw [routeTokens, show c2Scan.project_path = ([] : List Char) from rfl,
    show c2Scan.directory_tree = ([] : List Char) from rfl,
    show c2Scan.code_contents = List.replicate 400000 'a' from rfl,
    estimate_tokens_eq, estimate_tokens_eq, SYSTEM_PROMPT_length,
    INITIAL_ANALYSIS_PROMPT_format_length, List.length_replicate]
  decide

/-- The dynamic chunk budget of the witness scan is 122 564 tokens. -/
theorem c2_budget : dynamicChunkBudget c2Scan = 122564 := by
  rw [dynamicChunkBudget, show c2Scan.project_path = ([] : List Char) from rfl,
    show c2Scan.directory_tree = ([] : List Char) from rfl,
    estimate_tokens_eq, estimate_tokens_eq, SYSTEM_PROMPT_length,
    MAP_CHUNK_PROMPT_format_length, natStr_one]
  decide

/-- The witness corpus chunks into one full-budget piece and one
remainder. -/
theorem c2_chunks : runChunks c2Scan = [c2Chunk1, c2Chunk2] := by
  have hhs : hardSplit 367692 (List.replicate 400000 'a') =
      [List.replicate 367692 'a', List.replicate 32308 'a'] := by
    have h := hardSplit_replicate_two 367691 399999 'a' (by omega) (by omega)
    rw [show (367691 + 1 : Nat) = 367692 from rfl,
      show (399999 + 1 : Nat) = 400000 from rfl,
      show (399999 - 367691 : Nat) = 32308 from rfl] at h
    exact h
  have hsp := splitlines_replicate_a 399999
  rw [show (399999 + 1 : Nat) = 400000 from rfl] at hsp
  rw [runChunks, show c2Scan.code_contents = List.replicate 400000 'a' from rfl,
    c2_budget, chunk_text]
  rw [if_neg (by rw [List.length_replicate]; decide)]
  rw [show (122564 * CHARS_PER_TOKEN : Nat) = 367692 from rfl, hsp,
    chunkLoop_single_oversized 367692 (List.replicate 400000 'a')
      (by rw [List.length_replicate]; decide), hhs, c2Chunk1, c2Chunk2]

/-- A `_call_llm` invocation below the context limit records the backend's
success verbatim. -/
theorem call_llm_at_ok_eq (tag : CallTag) (messages : List Message)
    (backend : Backend) (res : List Char)
    (hest : ¬ MODEL_CONTEXT_LIMIT < estimate_tokens
      (joinWithSpace (messages.map Message.content)))
    (hb : backend messages = .ok res) :
    call_llm_at tag messages backend =
      { tag := tag, messages := messages, sent := true,
        outcome := .ok res } := by
  rw [call_llm_at, if_neg hest, hb]

/-- A `_call_llm` invocation below the context limit wraps the backend's
failure as an `apiFailure`. -/
theorem call_llm_at_err_eq (tag : CallTag) (messages : List Message)
    (backend : Backend) (msg : List Char)
    (hest : ¬ MODEL_CONTEXT_LIMIT < estimate_tokens
      (joinWithSpace (messages.map Message.content)))
    (hb : backend messages = .error msg) :
    call_llm_at tag messages backend =
      { tag := tag, messages := messages, sent := true,
        outcome := .error (.apiFailure msg) } := by
  rw [call_llm_at, if_neg hest, hb]

/-- The size-gated backend succeeds on large joined payloads. -/
theorem c2Backend_ok (msgs : List Message)
    (h : 10000 < (joinWithSpace (msgs.map Message.content)).length) :
    c2Backend msgs = .ok ['A'] := by
  show (if 10000 < (joinWithSpace (msgs.map Message.content)).length then
    (Except.ok ['A'] : Except (List Char) (List Char)) else
    Except.error ['b']) = Except.ok ['A']
  rw [if_pos h]

/-- The size-gated backend fails on small joined payloads. -/
theorem c2Backend_err (msgs : List Message)
    (h : ¬ 10000 < (joinWithSpace (msgs.map Message.content)).length) :
    c2Backend msgs = .error ['b'] := by
  show (if 10000 < (joinWithSpace (msgs.map Message.content)).length then
    (Except.ok ['A'] : Except (List Char) (List Char)) else
    Except.error ['b']) = Except.error ['b']
  rw [if_neg h]

/-- Joined payload length of the first map call: 369 218 characters. -/
theorem c2_map1_len :
    (joinWithSpace ((c2MapMessages 1 c2Chunk1).map Message.content)).length =
      369218 := by
  rw [c2MapMessages, List.map_cons, List.map_cons, List.map_nil,
    show Message.content (sysMsg SYSTEM_PROMPT) = SYSTEM_PROMPT from rfl,
    show Message.content (userMsg (MAP_CHUNK_PROMPT_format 1 2 [] []
      c2Chunk1)) = MAP_CHUNK_PROMPT_format 1 2 [] [] c2Chunk1 from rfl,
    joinWithSpace_pair, List.length_append, List.length_cons,
    SYSTEM_PROMPT_length, MAP_CHUNK_PROMPT_format_length, natStr_one,
    natStr_two, show c2Chunk1 = List.replicate 367692 'a' from rfl,
    List.length_replicate]
  decide

/-- Joined payload length of the second map call: 33 834 characters. -/
theorem c2_map2_len :
    (joinWithSpace ((c2MapMessages 2 c2Chunk2).map Message.content)).length =
      33834 := by
  rw [c2MapMessages, List.map_cons, List.map_cons, List.map_nil,
    show Message.content (sysMsg SYSTEM_PROMPT) = SYSTEM_PROMPT from rfl,
    show Message.content (userMsg (MAP_CHUNK_PROMPT_format 2 2 [] []
      c2Chunk2)) = MAP_CHUNK_PROMPT_format 2 2 [] [] c2Chunk2 from rfl,
    joinWithSpace_pair, List.length_append, List.length_cons,
    SYSTEM_PROMPT_length, MAP_CHUNK_PROMPT_format_length, natStr_two,
    show c2Chunk2 = List.replicate 32308 'a' from rfl, List.length_replicate]
  decide

/-- The first map call passes the guard and the size-gated backend accepts
its payload. -/
theorem c2_map_call_1 :
    map_chunk_call c2Backend 1 2 [] [] c2Chunk1 = c2MapCallRec 1 c2Chunk1 := by
  have hest : ¬ MODEL_CONTEXT_LIMIT < estimate_tokens
      (joinWithSpace ((c2MapMessages 1 c2Chunk1).map Message.content)) := by
    rw [estimate_tokens_eq, c2_map1_len]
    decide
  have hb : c2Backend (c2MapMessages 1 c2Chunk1) = .ok ['A'] :=
    c2Backend_ok (c2MapMessages 1 c2Chunk1) (by rw [c2_map1_len]; decide)
  rw [map_chunk_call, ← c2MapMessages]
  exact call_llm_at_ok_eq (.mapChunk 1 2) (c2MapMessages 1 c2Chunk1)
    c2Backend ['A'] hest hb

/-- The second map call passes the guard and the size-gated backend accepts
its payload. -/
theorem c2_map_call_2 :
    map_chunk_call c2Backend 2 2 [] [] c2Chunk2 = c2MapCallRec 2 c2Chunk2 := by
  have hest : ¬ MODEL_CONTEXT_LIMIT < estimate_tokens
      (joinWithSpace ((c2MapMessages 2 c2Chunk2).map Message.content)) := by
    rw [estimate_tokens_eq, c2_map2_len]
    decide
  have hb : c2Backend (c2MapMessages 2 c2Chunk2) = .ok ['A'] :=
    c2Backend_ok (c2MapMessages 2 c2Chunk2) (by rw [c2_map2_len]; decide)
  rw [map_chunk_call, ← c2MapMessages]
  exact call_llm_at_ok_eq (.mapChunk 2 2) (c2MapMessages 2 c2Chunk2)
    c2Backend ['A'] hest hb

/-- The two chunks of the witness run become two map calls. -/
theorem c2_map_calls_eq :
    runMapPhase c2Scan c2Backend =
      [map_chunk_call c2Backend 1 2 [] [] c2Chunk1,
       map_chunk_call c2Backend 2 2 [] [] c2Chunk2] := by
  rw [runMapPhase, c2_chunks,
    show c2Scan.project_path = ([] : List Char) from rfl,
    show c2Scan.directory_tree = ([] : List Char) from rfl,
    show ([c2Chunk1, c2Chunk2] : List (List Char)).length = 2 from rfl,
    runMapCalls, mapWithIndex, mapWithIndexGo, mapWithIndexGo, mapWithIndexGo]

/-- The map phase of the witness run: both calls succeed with `"A"`. -/
theorem c2_map_phase :
    runMapPhase c2Scan c2Backend =
      [c2MapCallRec 1 c2Chunk1, c2MapCallRec 2 c2Chunk2] := by
  rw [c2_map_calls_eq, c2_map_call_1, c2_map_call_2]

/-- No map call of the witness run fails. -/
theorem c2_first_map :
    firstCallError (runMapPhase c2Scan c2Backend) = none := by
  rw [c2_map_phase]
  rfl

/-- The witness map phase yields two single-character summaries. -/
theorem c2_summaries :
    List.map okText (runMapPhase c2Scan c2Backend) = [['A'], ['A']] := by
  rw [c2_map_phase]
  rfl

/-- Two one-token summaries share one reduce batch. -/
theorem c2_batches :
    build_token_aware_batches [['A'], ['A']] = [[['A'], ['A']]] := by
  decide

/-- Combined block rendered from the two summaries: 37 characters. -/
theorem c2_combined_len : (combineBatch [['A'], ['A']]).length = 37 := by
  decide

/-- Joined payload length of the witness reduce call: 1 512 characters. -/
theorem c2_red_len :
    (joinWithSpace (c2ReduceMessages.map Message.content)).length = 1512 := by
  rw [c2ReduceMessages, List.map_cons, List.map_cons, List.map_nil,
    show Message.content (sysMsg SYSTEM_PROMPT) = SYSTEM_PROMPT from rfl,
    show Message.content (userMsg (REDUCE_BATCH_PROMPT_format [] []
      (combineBatch [['A'], ['A']]))) = REDUCE_BATCH_PROMPT_format [] []
      (combineBatch [['A'], ['A']]) from rfl,
    joinWithSpace_pair, List.length_append, List.length_cons,
    SYSTEM_PROMPT_length, REDUCE_BATCH_PROMPT_format_length, c2_combined_len]
  decide

/-- The witness reduce call passes the guard but its 1 512-character payload
is under the backend's size gate, so the backend fails. -/
theorem c2_reduce_call :
    reduce_batch_call c2Backend 1 1 [] [] [['A'], ['A']] = c2ReduceCallRec := by
  have hest : ¬ MODEL_CONTEXT_LIMIT < estimate_tokens
      (joinWithSpace (c2ReduceMessages.map Message.content)) := by
    rw [estimate_tokens_eq, c2_red_len]
    decide
  have hb : c2Backend c2ReduceMessages = .error ['b'] :=
    c2Backend_err c2ReduceMessages (by rw [c2_red_len]; decide)
  rw [reduce_batch_call, ← c2ReduceMessages]
  exact call_llm_at_err_eq (.reduceBatch 1 1) c2ReduceMessages c2Backend ['b']
    hest hb

/-- The reduce phase of the witness run: one batch, one failing call. -/
theorem c2_reduce_phase :
    runReducePhase c2Scan c2Backend 1 =
      { events := [Event.reducingStart 1 2 1], calls := [c2ReduceCallRec],
        result := .error (.call (.apiFailure ['b'])) } := by
  have hrb : runReduceBatches c2Backend [] [] 1 [[['A'], ['A']]] =
      [c2ReduceCallRec] := by
    rw [runReduceBatches, mapWithIndex, mapWithIndexGo, mapWithIndexGo]
    show [reduce_batch_call c2Backend 1 1 [] [] [['A'], ['A']]] =
      [c2ReduceCallRec]
    rw [c2_reduce_call]
  have h := hierarchical_reduce_succ_eq c2Backend [] [] 0 [['A'], ['A']] 1
    (by decide)
  rw [Nat.zero_add] at h
  rw [runReducePhase, c2_summaries,
    show c2Scan.project_path = ([] : List Char) from rfl,
    show c2Scan.directory_tree = ([] : List Char) from rfl, h, c2_batches]
  rw [if_neg (by decide : ¬ ([[['A'], ['A']]] :
    List (List (List Char))).length = 0)]
  rw [hrb, show firstCallError [c2ReduceCallRec] =
    some (CallError.apiFailure ['b']) from rfl]
  rfl

/-- Result of the witness reduce phase. -/
theorem c2_red_result :
    (runReducePhase c2Scan c2Backend 1).result =
      .error (.call (.apiFailure ['b'])) := by
  rw [c2_reduce_phase]

/-- The complete call trace of the witness run: two successful map calls
followed by the failing reduce call. -/
theorem c2_run_calls :
    (analyze_project_stream c2Scan c2Backend 1 []).calls =
      [c2MapCallRec 1 c2Chunk1, c2MapCallRec 2 c2Chunk2, c2ReduceCallRec] := by
  rw [analyze_stream_reduce_error_eq c2Scan c2Backend 1 []
    (.call (.apiFailure ['b'])) c2_route c2_first_map c2_red_result,
    c2_map_phase, c2_reduce_phase]
  rfl

/-- Closed instance of the reduce-failure contract: on the 400 000-character
corpus with the size-gated backend, both map calls succeed, the single
reduce call fails, and the run emits exactly one `error` event, no `report`
event, no synthesis call, and ends with the `error` event. -/
theorem analyze_stream_reduce_failure_witness :
    (∃ c ∈ (analyze_project_stream c2Scan c2Backend 1 []).calls,
      isReduceBatchTag c.tag = true ∧ isOkCall c = false) ∧
    (countEvents isErrorEvent
        (analyze_project_stream c2Scan c2Backend 1 []).events = 1 ∧
      countEvents isReportEvent
        (analyze_project_stream c2Scan c2Backend 1 []).events = 0 ∧
      (∀ c ∈ (analyze_project_stream c2Scan c2Backend 1 []).calls,
        c.tag ≠ .synthesis) ∧
      (∃ e, (analyze_project_stream c2Scan c2Backend 1
        []).events.getLast? = some (.error e))) := by
  have hfail : ∃ c ∈ (analyze_project_stream c2Scan c2Backend 1 []).calls,
      isReduceBatchTag c.tag = true ∧ isOkCall c = false := by
    refine ⟨c2ReduceCallRec, ?_, rfl, rfl⟩
    rw [c2_run_calls]
    exact List.Mem.tail _ (List.Mem.tail _ (List.Mem.head _))
  exact ⟨hfail, analyze_stream_reduce_failure c2Scan c2Backend 1 [] hfail⟩

end GithubRepoAgent
